import Mathlib

/-!
# PN532 driver for the TM4C123: the SPI command/response protocol

A shallow embedding of `PN532_TM4C123.c`.

* Machine integers are natural numbers (or integers where C promotes to `int`
  and the value can go negative), reduced modulo `2 ^ width` wherever the C
  code stores into a narrower object.
* The hardware is an explicit `World`: the two GPIO data registers the driver
  touches, the global `packet_buffer`, the stream of values the SSI data
  register presents on successive loads, and a log of every access to that
  register.
* A `uint8_t *` argument is the view of memory from that pointer, a function
  from index to stored value; an element is read as a byte (`% 256`).
* The header `PN532_TM4C123.h` is not part of the sources at hand, so its
  symbolic constants are the fields of `Consts` and every function takes them
  as a parameter.
-/

namespace PN532

/-- Symbolic constants of the header `PN532_TM4C123.h`, kept abstract. -/
structure Consts where
  PN532_PREAMBLE : Nat
  PN532_STARTCODE1 : Nat
  PN532_STARTCODE2 : Nat
  PN532_POSTAMBLE : Nat
  PN532_HOSTTOPN532 : Nat
  PN532_SPI_STATREAD : Nat
  PN532_SPI_DATAWRITE : Nat
  PN532_SPI_DATAREAD : Nat
  PN532_SPI_READY : Nat
  PN532_COMMAND_GETFIRMWAREVERSION : Nat

/-- One access to the SSI data register `SSI0_DR_R`: a store of `dr`
(`tx`) or a load that yielded `dr` (`rx`). -/
inductive BusOp where
  | tx (dr : Nat)
  | rx (dr : Nat)
  deriving DecidableEq, Repr

/-- View of memory from a `uint8_t *`: index to stored value. -/
abbrev Buffer := Nat → Nat

/-- Everything outside the C functions that they read or change. -/
structure World where
  /-- Port A data register; bit `0x08` (PA3) is the chip-select line. -/
  GPIO_PORTA_DATA_R : Nat
  /-- Port F data register (the debug LEDs). -/
  GPIO_PORTF_DATA_R : Nat
  /-- The global `uint8_t packet_buffer[64]`. -/
  packet_buffer : Buffer
  /-- The transport: `SSI0_DR_in k` is what `SSI0_DR_R` yields on load number `k`. -/
  SSI0_DR_in : Nat → Nat
  /-- Number of loads of `SSI0_DR_R` performed so far. -/
  loads : Nat
  /-- Every access to `SSI0_DR_R` so far, oldest first. -/
  bus : List BusOp
  /-- Milliseconds spent in `delay` so far. -/
  msec : Nat

/-- Conversion of an `int` to `uint8_t`. -/
def toUInt8 (x : Int) : Nat := (x % 256).toNat

/-- Conversion of an `int` to `int8_t` (two's complement wrap). -/
def toInt8 (x : Int) : Int := (x + 128) % 256 - 128

/-- The busy loop `delay(N)`: it changes no program state; the model only
adds the `N` milliseconds to the elapsed-time counter. -/
def delay (N : Nat) (w : World) : World :=
  { w with msec := w.msec + N }

/-- Source `reverseBitOrder`: the eight masked and shifted bits are summed in
`int` and the sum is returned as a `uint8_t`. -/
def reverseBitOrder (byte : Nat) : Nat :=
  (((byte &&& 0x01) <<< 7) +
   ((byte &&& 0x02) <<< 5) +
   ((byte &&& 0x04) <<< 3) +
   ((byte &&& 0x08) <<< 1) +
   ((byte &&& 0x10) >>> 1) +
   ((byte &&& 0x20) >>> 3) +
   ((byte &&& 0x40) >>> 5) +
   ((byte &&& 0x80) >>> 7)) % 256

/-- The `int` value of the return expression of `reverseBitOrder`, before it
is converted to the `uint8_t` result. -/
def reverseBitOrder_int (byte : Nat) : Nat :=
  ((byte &&& 0x01) <<< 7) +
  ((byte &&& 0x02) <<< 5) +
  ((byte &&& 0x04) <<< 3) +
  ((byte &&& 0x08) <<< 1) +
  ((byte &&& 0x10) >>> 1) +
  ((byte &&& 0x20) >>> 3) +
  ((byte &&& 0x40) >>> 5) +
  ((byte &&& 0x80) >>> 7)

/-- Macro `SS_LOW()`: `GPIO_PORTA_DATA_R &= ~0x08` on a 32-bit register. -/
def SS_LOW (w : World) : World :=
  { w with GPIO_PORTA_DATA_R := (w.GPIO_PORTA_DATA_R &&& 0xFFFFFFF7) % 2 ^ 32 }

/-- Macro `SS_HIGH()`: `GPIO_PORTA_DATA_R |= 0x08` on a 32-bit register. -/
def SS_HIGH (w : World) : World :=
  { w with GPIO_PORTA_DATA_R := (w.GPIO_PORTA_DATA_R ||| 0x08) % 2 ^ 32 }

/-- Source `SSI_read`: once the peripheral is idle, load `SSI0_DR_R` into a
`uint8_t` and return it bit-reversed.  The wait on the busy flag is the
peripheral finishing its transfer; it is taken to return and leaves no trace. -/
def SSI_read (w : World) : Nat × World :=
  let byte := w.SSI0_DR_in w.loads % 256
  (reverseBitOrder byte,
   { w with loads := w.loads + 1, bus := w.bus ++ [BusOp.rx (w.SSI0_DR_in w.loads)] })

/-- Source `SSI_write`: once the peripheral is idle, store the bit-reversed
`uint8_t` argument into `SSI0_DR_R`. -/
def SSI_write (byte : Nat) (w : World) : World :=
  { w with bus := w.bus ++ [BusOp.tx (reverseBitOrder (byte % 256))] }

/-- The `for (uint8_t i = 0; i < cmd_length - 1; i++)` loop of `writeCommand`,
entered at index `i` with checksum accumulator `DCS`; `cmd_length` is the
already incremented `uint8_t`, and the comparison is done in `int`. -/
def writeCommand_loop (cmd : Buffer) (cmd_length : Nat) (i : Nat) (DCS : Nat)
    (w : World) : Nat × World :=
  if (i : Int) < ((cmd_length % 256 : Nat) : Int) - 1 then
    writeCommand_loop cmd cmd_length ((i + 1) % 256) ((DCS + cmd i % 256) % 256)
      (SSI_write (cmd i % 256) w)
  else (DCS, w)
termination_by 256 - i
decreasing_by omega

/-- Source `writeCommand`. -/
def writeCommand (c : Consts) (cmd : Buffer) (cmd_length : Nat) (w : World) : World :=
  let w := SS_LOW w
  let w := delay 1 w
  let w := SSI_write c.PN532_SPI_DATAWRITE w
  let w := SSI_write c.PN532_PREAMBLE w
  let w := SSI_write c.PN532_STARTCODE1 w
  let w := SSI_write c.PN532_STARTCODE2 w
  let cmd_length := (cmd_length % 256 + 1) % 256
  let w := SSI_write cmd_length w
  let w := SSI_write (toUInt8 (~~~(cmd_length : Int) + 1)) w
  let w := SSI_write c.PN532_HOSTTOPN532 w
  let DCS := c.PN532_HOSTTOPN532 % 256
  let r := writeCommand_loop cmd cmd_length 0 DCS w
  let DCS := r.1
  let w := r.2
  let w := SSI_write (toUInt8 (~~~(DCS : Int) + 1)) w
  let w := SSI_write c.PN532_POSTAMBLE w
  let w := delay 1 w
  SS_HIGH w

/-- The `for (uint8_t i = 0; i < data_length; i++)` loop of `readData`,
entered at index `i`. -/
def readData_loop (data_length : Nat) (i : Nat) (data_buffer : Buffer)
    (w : World) : Buffer × World :=
  if i < data_length % 256 then
    readData_loop data_length ((i + 1) % 256)
      (Function.update data_buffer i (SSI_read w).1) (SSI_read w).2
  else (data_buffer, w)
termination_by 256 - i
decreasing_by omega

/-- Source `readData`; the buffer written through the pointer is returned. -/
def readData (c : Consts) (data_buffer : Buffer) (data_length : Nat) (w : World) :
    Buffer × World :=
  let w := SS_LOW w
  let w := delay 1 w
  let w := SSI_write c.PN532_SPI_DATAREAD w
  let r := readData_loop data_length 0 data_buffer w
  let w := delay 1 r.2
  (r.1, SS_HIGH w)

/-- C library `memcmp` from index `i` over `n` bytes, in the byte-difference
form of the usual implementations: zero when all bytes agree, otherwise the
difference of the first pair of bytes that differ. -/
def memcmp_from (a b : Buffer) (i : Nat) : Nat → Int
  | 0 => 0
  | n + 1 =>
    if a i % 256 = b i % 256 then memcmp_from a b (i + 1) n
    else ((a i % 256 : Nat) : Int) - ((b i % 256 : Nat) : Int)

/-- C library `memcmp(a, b, n)`. -/
def memcmp (a b : Buffer) (n : Nat) : Int := memcmp_from a b 0 n

/-- The local constant `ACK_frame` of `readACK`. -/
def ACK_frame : Buffer := fun i => [0x00, 0x00, 0xFF, 0x00, 0xFF, 0x00].getD i 0

/-- Source `readACK`: the `int` result of `memcmp` is returned as `int8_t`.
The local `ACK_buffer` starts uninitialised (here: zeros); all six of its
elements are written by `readData` before they are compared. -/
def readACK (c : Consts) (w : World) : Int × World :=
  let ACK_buffer : Buffer := fun _ => 0
  let r := readData c ACK_buffer 6 w
  (toInt8 (memcmp r.1 ACK_frame 6), r.2)

/-- Source `isReadyForResponse`; the `int` result is the value of
`status == PN532_SPI_READY`. -/
def isReadyForResponse (c : Consts) (w : World) : Int × World :=
  let w := SS_LOW w
  let w := delay 1 w
  let w := SSI_write c.PN532_SPI_STATREAD w
  let r := SSI_read w
  let status := r.1
  let w := delay 1 r.2
  let w := SS_HIGH w
  (if status = c.PN532_SPI_READY then 1 else 0, w)

/-- The `uint16_t wait_time` after `wait_time--`: the decrement wraps modulo `2 ^ 16`. -/
def decremented (wait_time : Nat) : Nat := (wait_time % 65536 + 65535) % 65536

/-- Source `waitToBeReadyForResponse`; `wait_time` is a `uint16_t`. -/
def waitToBeReadyForResponse (c : Consts) (wait_time : Nat) (w : World) : Int × World :=
  if (isReadyForResponse c w).1 = 0 then
    if _h : decremented wait_time = 0 then
      (0, delay 1 (isReadyForResponse c w).2)
    else
      waitToBeReadyForResponse c (decremented wait_time)
        (delay 1 (isReadyForResponse c w).2)
  else (1, (isReadyForResponse c w).2)
termination_by decremented wait_time
decreasing_by
  have h : decremented wait_time ≠ 0 := by assumption
  unfold decremented at h ⊢
  omega

/-- The statement `GPIO_PORTF_DATA_R |= mask` on the 32-bit register. -/
def PORTF_or (mask : Nat) (w : World) : World :=
  { w with GPIO_PORTF_DATA_R := (w.GPIO_PORTF_DATA_R ||| mask) % 2 ^ 32 }

/-- The statement `GPIO_PORTF_DATA_R = value` on the 32-bit register. -/
def PORTF_set (value : Nat) (w : World) : World :=
  { w with GPIO_PORTF_DATA_R := value % 2 ^ 32 }

/-- Source `writeCommandACK`. -/
def writeCommandACK (c : Consts) (cmd : Buffer) (cmd_length : Nat) (wait_time : Nat)
    (w : World) : Int × World :=
  let w := writeCommand c cmd cmd_length w
  let r := waitToBeReadyForResponse c wait_time w
  if r.1 = 0 then (0, r.2)
  else
    let a := readACK c r.2
    if a.1 ≠ 0 then (0, a.2)
    else
      let w := PORTF_or 0x02 a.2
      let r := waitToBeReadyForResponse c wait_time w
      if r.1 = 0 then (0, r.2)
      else (1, r.2)

/-- Source `PN532_getFirmwareVersion`; `response` is a `uint32_t`. -/
def PN532_getFirmwareVersion (c : Consts) (w : World) : Nat × World :=
  let packet_buffer :=
    Function.update w.packet_buffer 0 (c.PN532_COMMAND_GETFIRMWAREVERSION % 256)
  let w := { w with packet_buffer := packet_buffer }
  let r := writeCommandACK c w.packet_buffer 1 100 w
  if r.1 = 0 then (0, r.2)
  else
    let w := PORTF_set 0x08 r.2
    let d := readData c w.packet_buffer 12 w
    let w := { d.2 with packet_buffer := d.1 }
    let response := w.packet_buffer 0 % 256
    let response := (response <<< 8) % 2 ^ 32
    let response := response ||| (w.packet_buffer 1 % 256)
    let response := (response <<< 8) % 2 ^ 32
    let response := response ||| (w.packet_buffer 2 % 256)
    let response := (response <<< 8) % 2 ^ 32
    let response := response ||| (w.packet_buffer 3 % 256)
    (response, w)

/-- Source `mifareclassic_isTrailerBlock`; `uiBlock` is a `uint32_t`, so
`uiBlock + 1` is computed modulo `2 ^ 32`, and the `int` result is the value of
the comparison. -/
def mifareclassic_isTrailerBlock (uiBlock : Nat) : Int :=
  if uiBlock < 128 then
    (if (uiBlock + 1) % 2 ^ 32 % 4 = 0 then 1 else 0)
  else
    (if (uiBlock + 1) % 2 ^ 32 % 16 = 0 then 1 else 0)

/-! ## Stores through pointers, on an explicit memory

The functions above take a `uint8_t *` argument as the view of memory from
that pointer.  To speak of what a call leaves in the caller's memory, the
functions that receive or create a buffer are given here on an explicit
byte-addressed memory, with a pointer as an address.  The address of the
automatic array `ACK_buffer` of `readACK` is a parameter. -/

/-- Byte-addressed memory: address to stored byte. -/
abbrev Memory := Nat → Nat

/-- Source `writeCommand` on a pointer: `cmd[i]` is the byte at address
`cmd + i`.  The function has no store through `cmd`, so the memory is passed
on as it is. -/
def writeCommand_at (c : Consts) (cmd : Nat) (cmd_length : Nat) (m : Memory) (w : World) :
    Memory × World :=
  (m, writeCommand c (fun i => m (cmd + i)) cmd_length w)

/-- The loop of `readData` on a pointer: `data_buffer[i] = SSI_read()` stores
at address `data_buffer + i`. -/
def readData_loop_at (data_buffer : Nat) (data_length : Nat) (i : Nat) (m : Memory)
    (w : World) : Memory × World :=
  if i < data_length % 256 then
    readData_loop_at data_buffer data_length ((i + 1) % 256)
      (Function.update m (data_buffer + i) (SSI_read w).1) (SSI_read w).2
  else (m, w)
termination_by 256 - i
decreasing_by omega

/-- Source `readData` on a pointer. -/
def readData_at (c : Consts) (data_buffer : Nat) (data_length : Nat) (m : Memory) (w : World) :
    Memory × World :=
  let w := SS_LOW w
  let w := delay 1 w
  let w := SSI_write c.PN532_SPI_DATAREAD w
  let r := readData_loop_at data_buffer data_length 0 m w
  let w := delay 1 r.2
  (r.1, SS_HIGH w)

/-- Source `readACK` with its automatic array `ACK_buffer` at address
`ACK_buffer`: the six bytes are stored there and compared from there. -/
def readACK_at (c : Consts) (ACK_buffer : Nat) (m : Memory) (w : World) :
    Int × Memory × World :=
  let r := readData_at c ACK_buffer 6 m w
  (toInt8 (memcmp (fun i => r.1 (ACK_buffer + i)) ACK_frame 6), r.1, r.2)

/-- Source `writeCommandACK` on a pointer `cmd`; `ACK_buffer` is the address
of the automatic array of the `readACK` it calls. -/
def writeCommandACK_at (c : Consts) (cmd : Nat) (cmd_length : Nat) (wait_time : Nat)
    (ACK_buffer : Nat) (m : Memory) (w : World) : Int × Memory × World :=
  let s := writeCommand_at c cmd cmd_length m w
  let r := waitToBeReadyForResponse c wait_time s.2
  if r.1 = 0 then (0, s.1, r.2)
  else
    let a := readACK_at c ACK_buffer s.1 r.2
    if a.1 ≠ 0 then (0, a.2.1, a.2.2)
    else
      let w := PORTF_or 0x02 a.2.2
      let r := waitToBeReadyForResponse c wait_time w
      if r.1 = 0 then (0, a.2.1, r.2)
      else (1, a.2.1, r.2)

/-! ## Vocabulary for the statements

Names for the bus accesses a call makes, for intermediate values of the source
functions, and for the sample constants and transports used as concrete inputs. -/

/-- The store that `SSI_write byte` performs. -/
def sent (byte : Nat) : BusOp := BusOp.tx (reverseBitOrder (byte % 256))

/-- The byte that `SSI_read` returns on load number `k` counted from world `w`. -/
def received (w : World) (k : Nat) : Nat :=
  reverseBitOrder (w.SSI0_DR_in (w.loads + k) % 256)

/-- The accesses to `SSI0_DR_R` made between world `w0` and the later world `w1`. -/
def opsBetween (w0 w1 : World) : List BusOp := w1.bus.drop w0.bus.length

/-- Chip-select register after one `SS_LOW()` ... `SS_HIGH()` bracket. -/
def bracketed (w : World) : Nat := (SS_HIGH (SS_LOW w)).GPIO_PORTA_DATA_R

/-- Chip-select is deasserted: bit `0x08` (PA3) of the port A data register is set. -/
def csHigh (w : World) : Prop := w.GPIO_PORTA_DATA_R.testBit 3 = true

/-- Value of the `uint8_t cmd_length` after `cmd_length++` in `writeCommand`. -/
def lenField (cmd_length : Nat) : Nat := (cmd_length % 256 + 1) % 256

/-- Value of the accumulator `DCS` of `writeCommand` when its loop ends. -/
def dcsAcc (c : Consts) (cmd : Buffer) (cmd_length : Nat) : Nat :=
  (List.range' 0 (lenField cmd_length - 1)).foldl
    (fun acc j => (acc + cmd j % 256) % 256) (c.PN532_HOSTTOPN532 % 256)

/-- The stores that `writeCommand` performs, in order. -/
def frameOps (c : Consts) (cmd : Buffer) (cmd_length : Nat) : List BusOp :=
  [sent c.PN532_SPI_DATAWRITE, sent c.PN532_PREAMBLE, sent c.PN532_STARTCODE1,
   sent c.PN532_STARTCODE2, sent (lenField cmd_length),
   sent (toUInt8 (~~~(lenField cmd_length : Int) + 1)), sent c.PN532_HOSTTOPN532]
  ++ (List.range' 0 (lenField cmd_length - 1)).map (fun j => sent (cmd j))
  ++ [sent (toUInt8 (~~~(dcsAcc c cmd cmd_length : Int) + 1)), sent c.PN532_POSTAMBLE]

/-- The loads that reading `n` bytes performs from world `w` on. -/
def loadOps (w : World) (n : Nat) : List BusOp :=
  (List.range n).map (fun k => BusOp.rx (w.SSI0_DR_in (w.loads + k)))

/-- One pass through the body of the `while` loop of `waitToBeReadyForResponse`
up to the decrement: a readiness check that came back not ready, then `delay(1)`. -/
def failedPoll (c : Consts) (w : World) : World := delay 1 (isReadyForResponse c w).2

/-- The accesses to `SSI0_DR_R` that `k` readiness checks perform from world `w` on. -/
def pollOps (c : Consts) (w : World) : Nat → List BusOp
  | 0 => []
  | k + 1 => pollOps c w k ++ [sent c.PN532_SPI_STATREAD, BusOp.rx (w.SSI0_DR_in (w.loads + k))]

/-- The world after the first statement of `PN532_getFirmwareVersion`,
`packet_buffer[0] = PN532_COMMAND_GETFIRMWAREVERSION`. -/
def withOpcode (c : Consts) (w : World) : World :=
  { w with packet_buffer :=
      Function.update w.packet_buffer 0 (c.PN532_COMMAND_GETFIRMWAREVERSION % 256) }

/-- The frame `PN532_getFirmwareVersion` sends: a command of one byte, the opcode. -/
def firmwareFrame (c : Consts) : List BusOp :=
  [sent c.PN532_SPI_DATAWRITE, sent c.PN532_PREAMBLE, sent c.PN532_STARTCODE1,
   sent c.PN532_STARTCODE2, sent 0x02, sent 0xFE, sent c.PN532_HOSTTOPN532,
   sent c.PN532_COMMAND_GETFIRMWAREVERSION,
   sent ((256 - (c.PN532_HOSTTOPN532 % 256 +
     c.PN532_COMMAND_GETFIRMWAREVERSION % 256) % 256) % 256),
   sent c.PN532_POSTAMBLE]

/-- Modelled from the spec: the header `PN532_TM4C123.h` is missing.  The
framing constants are those of section 6 of the specification (preamble
`0x00`, start code `0x00 0xFF`, host-to-chip direction byte `0x01`, postamble
`0x00`); the indicator bytes, the ready value and the opcode, which the
specification only calls chip-specific fixed constants, are those of the
PN532 user manual. -/
def sampleConsts : Consts where
  PN532_PREAMBLE := 0x00
  PN532_STARTCODE1 := 0x00
  PN532_STARTCODE2 := 0xFF
  PN532_POSTAMBLE := 0x00
  PN532_HOSTTOPN532 := 0x01
  PN532_SPI_STATREAD := 0x02
  PN532_SPI_DATAWRITE := 0x01
  PN532_SPI_DATAREAD := 0x03
  PN532_SPI_READY := 0x01
  PN532_COMMAND_GETFIRMWAREVERSION := 0x02

/-- A world at rest (chip-select high, nothing exchanged yet) whose data
register will present the values of `stream` followed by zeros. -/
def idleWorld (stream : List Nat) : World where
  GPIO_PORTA_DATA_R := 0x08
  GPIO_PORTF_DATA_R := 0
  packet_buffer := fun _ => 0
  SSI0_DR_in := fun k => stream.getD k 0
  loads := 0
  bus := []
  msec := 0

/-- The values the data register presents during a firmware-version exchange
that succeeds at once: a ready status, the ACK frame, a ready status, and a
response whose first four bytes are 0, 0, 1, 0 (the registers hold each byte
bit-reversed). -/
def firmwareStream : List Nat :=
  [0x80, 0x00, 0x00, 0xFF, 0x00, 0xFF, 0x00, 0x80, 0x00, 0x00, 0x80, 0x00]

/-- The values the data register presents during a firmware-version exchange
that succeeds at once and whose 12-byte response is all zeros: a ready
status, the ACK frame, a ready status, then zeros. -/
def zeroVersionStream : List Nat :=
  [0x80, 0x00, 0x00, 0xFF, 0x00, 0xFF, 0x00, 0x80]

/-! ## The two `for` loops -/

theorem writeCommand_loop_eq (cmd : Buffer) (L : Nat) :
    ∀ (n i DCS : Nat) (w : World), L % 256 - 1 - i = n →
      writeCommand_loop cmd L i DCS w =
        ((List.range' i n).foldl (fun acc j => (acc + cmd j % 256) % 256) DCS,
         { w with bus := w.bus ++ (List.range' i n).map (fun j => sent (cmd j)) }) := by
  intro n
  induction n with
  | zero =>
    intro i DCS w h
    rw [writeCommand_loop]
    have hc : ¬ ((i : Int) < ((L % 256 : Nat) : Int) - 1) := by omega
    rw [if_neg hc]
    simp
  | succ n ih =>
    intro i DCS w h
    rw [writeCommand_loop]
    have hc : (i : Int) < ((L % 256 : Nat) : Int) - 1 := by omega
    have hi : (i + 1) % 256 = i + 1 := by omega
    rw [if_pos hc, hi, ih (i + 1) _ _ (by omega)]
    simp [SSI_write, sent, List.range'_succ]

theorem readData_loop_eq (L : Nat) :
    ∀ (n i : Nat) (buf : Buffer) (w : World), L % 256 - i = n →
      readData_loop L i buf w =
        ((fun j => if i ≤ j ∧ j < i + n then received w (j - i) else buf j),
         { w with loads := w.loads + n,
                  bus := w.bus ++ (List.range n).map
                    (fun k => BusOp.rx (w.SSI0_DR_in (w.loads + k))) }) := by
  intro n
  induction n with
  | zero =>
    intro i buf w h
    rw [readData_loop]
    have hc : ¬ (i < L % 256) := by omega
    rw [if_neg hc]
    refine Prod.ext ?_ (by simp)
    funext j
    have h2 : ¬ (i ≤ j ∧ j < i + 0) := by omega
    exact (if_neg h2).symm
  | succ n ih =>
    intro i buf w h
    rw [readData_loop]
    have hc : i < L % 256 := by omega
    have hi : (i + 1) % 256 = i + 1 := by omega
    rw [if_pos hc, hi, ih (i + 1) _ _ (by omega)]
    refine Prod.ext ?_ ?_
    · funext j
      simp only [SSI_read, received]
      by_cases hj : j = i
      · subst hj
        simp
      · rw [Function.update_noteq hj]
        by_cases h1 : i + 1 ≤ j ∧ j < i + 1 + n
        · have h2 : i ≤ j ∧ j < i + (n + 1) := by omega
          have h3 : w.loads + 1 + (j - (i + 1)) = w.loads + (j - i) := by omega
          simp [h1, h2, h3]
        · have h2 : ¬ (i ≤ j ∧ j < i + (n + 1)) := by omega
          simp [h1, h2]
    · simp [SSI_read, List.range_succ_eq_map, Nat.add_assoc, Nat.add_comm 1]

/-! ## Straight-line functions as one world update -/

theorem lenField_lt (cmd_length : Nat) : lenField cmd_length < 256 :=
  Nat.mod_lt _ (by decide)

theorem writeCommand_eq (c : Consts) (cmd : Buffer) (cmd_length : Nat) (w : World) :
    writeCommand c cmd cmd_length w =
      { w with GPIO_PORTA_DATA_R := bracketed w, msec := w.msec + 2,
               bus := w.bus ++ frameOps c cmd cmd_length } := by
  have hl : lenField cmd_length % 256 = lenField cmd_length :=
    Nat.mod_eq_of_lt (lenField_lt cmd_length)
  simp only [writeCommand]
  rw [writeCommand_loop_eq cmd _ ((cmd_length % 256 + 1) % 256 - 1) 0 _ _
    (by simp)]
  simp [SSI_write, SS_HIGH, SS_LOW, delay, bracketed, frameOps, sent, dcsAcc, lenField]

theorem readData_eq (c : Consts) (buf : Buffer) (n : Nat) (w : World) :
    readData c buf n w =
      ((fun j => if j < n % 256 then received w j else buf j),
       { w with GPIO_PORTA_DATA_R := bracketed w, msec := w.msec + 2,
                loads := w.loads + n % 256,
                bus := w.bus ++ sent c.PN532_SPI_DATAREAD :: loadOps w (n % 256) }) := by
  simp only [readData]
  rw [readData_loop_eq n (n % 256) 0 _ _ (by simp)]
  simp [SSI_write, SS_HIGH, SS_LOW, delay, bracketed, sent, loadOps, received]

theorem isReadyForResponse_eq (c : Consts) (w : World) :
    isReadyForResponse c w =
      ((if received w 0 = c.PN532_SPI_READY then 1 else 0),
       { w with GPIO_PORTA_DATA_R := bracketed w, msec := w.msec + 2,
                loads := w.loads + 1,
                bus := w.bus ++ [sent c.PN532_SPI_STATREAD, BusOp.rx (w.SSI0_DR_in w.loads)] }) := by
  simp [isReadyForResponse, SSI_write, SSI_read, SS_HIGH, SS_LOW, delay, bracketed, sent,
    received]

/-! ## The polling loop -/

theorem decremented_pred (wait_time : Nat) (h : decremented wait_time ≠ 0) :
    decremented (decremented wait_time) + 1 = decremented wait_time := by
  unfold decremented at h ⊢
  omega

theorem failedPoll_iterate_loads (c : Consts) (w : World) (k : Nat) :
    ((failedPoll c)^[k] w).loads = w.loads + k := by
  induction k with
  | zero => rfl
  | succ k ih =>
    rw [Function.iterate_succ_apply', failedPoll, isReadyForResponse_eq]
    simp [delay, ih, Nat.add_assoc]

theorem failedPoll_iterate_in (c : Consts) (w : World) (k : Nat) :
    ((failedPoll c)^[k] w).SSI0_DR_in = w.SSI0_DR_in := by
  induction k with
  | zero => rfl
  | succ k ih =>
    rw [Function.iterate_succ_apply', failedPoll, isReadyForResponse_eq]
    simp [delay, ih]

theorem failedPoll_iterate_bus (c : Consts) (w : World) (k : Nat) :
    ((failedPoll c)^[k] w).bus = w.bus ++ pollOps c w k := by
  induction k with
  | zero => simp [pollOps]
  | succ k ih =>
    rw [Function.iterate_succ_apply', failedPoll, isReadyForResponse_eq]
    simp [delay, ih, pollOps, failedPoll_iterate_loads, failedPoll_iterate_in]

theorem failedPoll_iterate_packet_buffer (c : Consts) (w : World) (k : Nat) :
    ((failedPoll c)^[k] w).packet_buffer = w.packet_buffer := by
  induction k with
  | zero => rfl
  | succ k ih =>
    rw [Function.iterate_succ_apply', failedPoll, isReadyForResponse_eq]
    simp [delay, ih]

theorem failedPoll_iterate_portF (c : Consts) (w : World) (k : Nat) :
    ((failedPoll c)^[k] w).GPIO_PORTF_DATA_R = w.GPIO_PORTF_DATA_R := by
  induction k with
  | zero => rfl
  | succ k ih =>
    rw [Function.iterate_succ_apply', failedPoll, isReadyForResponse_eq]
    simp [delay, ih]

theorem received_failedPoll (c : Consts) (w : World) (j : Nat) :
    received (failedPoll c w) j = received w (j + 1) := by
  simp [failedPoll, isReadyForResponse_eq, delay, received, Nat.add_assoc, Nat.add_comm 1]

/-- When none of the first `k + 1` status bytes is the ready constant and the
decremented budget is `k`, the loop gives up after exactly `k + 1` checks. -/
theorem wait_timeout (c : Consts) :
    ∀ (k wait_time : Nat) (w : World), decremented wait_time = k →
      (∀ j, j ≤ k → received w j ≠ c.PN532_SPI_READY) →
      waitToBeReadyForResponse c wait_time w = (0, (failedPoll c)^[k + 1] w) := by
  intro k
  induction k with
  | zero =>
    intro wait_time w hk hnr
    have h0 : (isReadyForResponse c w).1 = 0 := by
      simp [isReadyForResponse_eq, hnr 0 (Nat.le_refl 0)]
    rw [waitToBeReadyForResponse, if_pos h0, dif_pos hk]
    rfl
  | succ k ih =>
    intro wait_time w hk hnr
    have h0 : (isReadyForResponse c w).1 = 0 := by
      simp [isReadyForResponse_eq, hnr 0 (Nat.zero_le _)]
    have hne : ¬ (decremented wait_time = 0) := by omega
    rw [waitToBeReadyForResponse, if_pos h0, dif_neg hne]
    have hk2 : decremented (decremented wait_time) = k := by
      have := decremented_pred wait_time hne
      omega
    rw [ih _ (delay 1 (isReadyForResponse c w).2) hk2 ?_]
    · rfl
    · intro j hj
      have := hnr (j + 1) (by omega)
      rwa [← received_failedPoll c w j] at this

/-- When the first ready status byte is number `k` (counted from 0) and the
decremented budget is at least `k`, the loop succeeds right after check `k`. -/
theorem wait_ready (c : Consts) :
    ∀ (k wait_time : Nat) (w : World), k ≤ decremented wait_time →
      (∀ j, j < k → received w j ≠ c.PN532_SPI_READY) →
      received w k = c.PN532_SPI_READY →
      waitToBeReadyForResponse c wait_time w =
        (1, (isReadyForResponse c ((failedPoll c)^[k] w)).2) := by
  intro k
  induction k with
  | zero =>
    intro wait_time w _ _ hr
    have h1 : ¬ ((isReadyForResponse c w).1 = 0) := by
      simp [isReadyForResponse_eq, hr]
    rw [waitToBeReadyForResponse, if_neg h1]
    rfl
  | succ k ih =>
    intro wait_time w hk hnr hr
    have h0 : (isReadyForResponse c w).1 = 0 := by
      simp [isReadyForResponse_eq, hnr 0 (Nat.succ_pos _)]
    have hne : ¬ (decremented wait_time = 0) := by omega
    rw [waitToBeReadyForResponse, if_pos h0, dif_neg hne]
    have hk2 : k ≤ decremented (decremented wait_time) := by
      have := decremented_pred wait_time hne
      omega
    rw [ih _ (delay 1 (isReadyForResponse c w).2) hk2 ?_ ?_]
    · rfl
    · intro j hj
      have := hnr (j + 1) (by omega)
      rwa [← received_failedPoll c w j] at this
    · rwa [← received_failedPoll c w k] at hr

/-- The loop reports ready exactly when one of the status bytes number
`0 .. decremented wait_time` is the ready constant; otherwise it reports 0. -/
theorem wait_fst (c : Consts) (wait_time : Nat) (w : World) :
    ((waitToBeReadyForResponse c wait_time w).1 = 1 ↔
      ∃ j, j ≤ decremented wait_time ∧ received w j = c.PN532_SPI_READY) ∧
    ((waitToBeReadyForResponse c wait_time w).1 = 0 ∨
      (waitToBeReadyForResponse c wait_time w).1 = 1) := by
  by_cases h : ∃ j, j ≤ decremented wait_time ∧ received w j = c.PN532_SPI_READY
  · have hk := Nat.find_spec h
    have hmin : ∀ j, j < Nat.find h → received w j ≠ c.PN532_SPI_READY := by
      intro j hj hr
      exact Nat.find_min h hj ⟨by omega, hr⟩
    rw [wait_ready c (Nat.find h) wait_time w hk.1 hmin hk.2]
    simp [h]
  · have hnr : ∀ j, j ≤ decremented wait_time → received w j ≠ c.PN532_SPI_READY := by
      intro j hj hr
      exact h ⟨j, hj, hr⟩
    rw [wait_timeout c (decremented wait_time) wait_time w rfl hnr]
    simp [h]

/-! ## The acknowledgment check -/

theorem memcmp_from_bounds (a b : Buffer) :
    ∀ (n i : Nat), -255 ≤ memcmp_from a b i n ∧ memcmp_from a b i n ≤ 255 := by
  intro n
  induction n with
  | zero => intro i; simp [memcmp_from]
  | succ n ih =>
    intro i
    rw [memcmp_from]
    split
    · exact ih (i + 1)
    · omega

theorem memcmp_from_eq_zero_iff (a b : Buffer) :
    ∀ (n i : Nat), memcmp_from a b i n = 0 ↔ ∀ j, j < n → a (i + j) % 256 = b (i + j) % 256 := by
  intro n
  induction n with
  | zero => intro i; simp [memcmp_from]
  | succ n ih =>
    intro i
    rw [memcmp_from]
    by_cases h : a i % 256 = b i % 256
    · rw [if_pos h, ih (i + 1)]
      constructor
      · intro hall j hj
        cases j with
        | zero => simpa using h
        | succ j =>
          have := hall j (by omega)
          rwa [show i + 1 + j = i + (j + 1) by omega] at this
      · intro hall j hj
        have := hall (j + 1) (by omega)
        rwa [show i + (j + 1) = i + 1 + j by omega] at this
    · rw [if_neg h]
      constructor
      · intro h0
        exact absurd (by omega) h
      · intro hall
        exact absurd (by simpa using hall 0 (Nat.succ_pos n)) h

theorem toInt8_eq_zero_iff (d : Int) (h1 : -255 ≤ d) (h2 : d ≤ 255) :
    toInt8 d = 0 ↔ d = 0 := by
  unfold toInt8
  omega

theorem toInt8_range (d : Int) : -128 ≤ toInt8 d ∧ toInt8 d ≤ 127 := by
  unfold toInt8
  omega

theorem reverseBitOrder_lt (b : Nat) : reverseBitOrder b < 256 :=
  Nat.mod_lt _ (by decide)

theorem received_lt (w : World) (k : Nat) : received w k < 256 :=
  reverseBitOrder_lt _

/-- The world that `readACK` leaves is the one its 6-byte `readData` leaves,
and its result is 0 exactly when the six received bytes are the ACK frame. -/
theorem readACK_spec (c : Consts) (w : World) :
    (readACK c w).2 = (readData c (fun _ => 0) 6 w).2 ∧
    ((readACK c w).1 = 0 ↔ ∀ j, j < 6 → received w j = ACK_frame j) := by
  refine ⟨rfl, ?_⟩
  have hb := memcmp_from_bounds (readData c (fun _ => 0) 6 w).1 ACK_frame 6 0
  simp only [readACK, memcmp]
  rw [toInt8_eq_zero_iff _ hb.1 hb.2, memcmp_from_eq_zero_iff, readData_eq]
  constructor
  · intro h j hj
    have h1 := h j hj
    have h2 := received_lt w j
    have h3 : ACK_frame j < 256 := by
      have : j = 0 ∨ j = 1 ∨ j = 2 ∨ j = 3 ∨ j = 4 ∨ j = 5 := by omega
      rcases this with h | h | h | h | h | h <;> subst h <;> decide
    simp only [Nat.zero_add, show j < 6 % 256 by omega, if_true] at h1
    rwa [Nat.mod_eq_of_lt h2, Nat.mod_eq_of_lt h3] at h1
  · intro h j hj
    simp only [Nat.zero_add, show j < 6 % 256 by omega, if_true]
    rw [h j hj]

/-! ## Checksum arithmetic -/

/-- The C expression `~x + 1` on a promoted `uint8_t`, stored back into a `uint8_t`. -/
theorem toUInt8_compl_add_one (x : Nat) :
    toUInt8 (~~~(x : Int) + 1) = (256 - x % 256) % 256 := by
  have h : ~~~(x : Int) = -(x : Int) - 1 := by
    show Int.not (Int.ofNat x) = _
    simp [Int.not, Int.negSucc_eq]
    omega
  unfold toUInt8
  rw [h]
  omega

theorem foldl_checksum (cmd : Buffer) (l : List Nat) :
    ∀ s : Nat, (l.foldl (fun acc j => (acc + cmd j % 256) % 256) s) % 256 =
      (s + (l.map (fun j => cmd j % 256)).sum) % 256 := by
  induction l with
  | nil => intro s; simp
  | cons a l ih =>
    intro s
    simp only [List.foldl_cons, List.map_cons, List.sum_cons]
    rw [ih]
    omega

theorem dcsAcc_mod (c : Consts) (cmd : Buffer) (cmd_length : Nat) :
    dcsAcc c cmd cmd_length % 256 =
      (c.PN532_HOSTTOPN532 +
        ((List.range (lenField cmd_length - 1)).map (fun j => cmd j % 256)).sum) % 256 := by
  unfold dcsAcc
  rw [foldl_checksum, List.range_eq_range']
  omega

set_option maxRecDepth 100000 in
theorem reverseBitOrder_twice (b : Nat) (h : b < 256) :
    reverseBitOrder (reverseBitOrder b) = b := by
  revert b
  decide

theorem sent_inj (a b : Nat) (ha : a < 256) (hb : b < 256) (h : sent a = sent b) : a = b := by
  unfold sent at h
  rw [Nat.mod_eq_of_lt ha, Nat.mod_eq_of_lt hb] at h
  have h2 : reverseBitOrder a = reverseBitOrder b := by injection h
  rw [← reverseBitOrder_twice a ha, ← reverseBitOrder_twice b hb, h2]

theorem opsBetween_writeCommand (c : Consts) (cmd : Buffer) (cmd_length : Nat) (w : World) :
    opsBetween w (writeCommand c cmd cmd_length w) = frameOps c cmd cmd_length := by
  simp [opsBetween, writeCommand_eq]

theorem lenField_of_le (cmd_length : Nat) (h : cmd_length ≤ 254) :
    lenField cmd_length = cmd_length + 1 := by
  unfold lenField
  omega

/-! ## The command/response orchestrator -/

theorem ack_bytes_iff (f : Nat → Nat) :
    (∀ j, j < 6 → f j = ACK_frame j) ↔
      (List.range 6).map f = [0x00, 0x00, 0xFF, 0x00, 0xFF, 0x00] := by
  constructor
  · intro h
    simp only [List.range, List.range.loop, List.map]
    rw [h 0 (by decide), h 1 (by decide), h 2 (by decide), h 3 (by decide),
      h 4 (by decide), h 5 (by decide)]
    rfl
  · intro h j hj
    simp only [List.range, List.range.loop, List.map, List.cons.injEq, and_true] at h
    have : j = 0 ∨ j = 1 ∨ j = 2 ∨ j = 3 ∨ j = 4 ∨ j = 5 := by omega
    rcases this with e | e | e | e | e | e <;> subst e <;> simp [h, ACK_frame]

/-- C1: `writeCommandACK` returns 1 exactly when its three gates pass in
order (first readiness wait, then `readACK` returning 0, which happens exactly
when the six bytes read are the ACK constant, then the second readiness wait
with the same budget); otherwise it returns 0, and the world it leaves is the
one left by the first gate that failed, so no later step was performed. -/
theorem C1_writeCommandACK_gates (c : Consts) (cmd : Buffer) (cmd_length wait_time : Nat)
    (w : World) :
    let w1 := writeCommand c cmd cmd_length w
    let r1 := waitToBeReadyForResponse c wait_time w1
    let a := readACK c r1.2
    let r2 := waitToBeReadyForResponse c wait_time (PORTF_or 0x02 a.2)
    let out := writeCommandACK c cmd cmd_length wait_time w
    (out.1 = 1 ↔ r1.1 = 1 ∧ a.1 = 0 ∧ r2.1 = 1) ∧
    (out.1 = 1 ∨ out.1 = 0) ∧
    (a.1 = 0 ↔ (List.range 6).map (received r1.2) = [0x00, 0x00, 0xFF, 0x00, 0xFF, 0x00]) ∧
    (r1.1 ≠ 1 → out = (0, r1.2)) ∧
    (r1.1 = 1 → a.1 ≠ 0 → out = (0, a.2)) ∧
    (r1.1 = 1 → a.1 = 0 → r2.1 ≠ 1 → out = (0, r2.2)) ∧
    (r1.1 = 1 → a.1 = 0 → r2.1 = 1 → out = (1, r2.2)) := by
  intro w1 r1 a r2 out
  have hack : a.1 = 0 ↔
      (List.range 6).map (received r1.2) = [0x00, 0x00, 0xFF, 0x00, 0xFF, 0x00] := by
    rw [(readACK_spec c r1.2).2]
    exact ack_bytes_iff _
  have h1 := (wait_fst c wait_time w1).2
  have h2 := (wait_fst c wait_time (PORTF_or 0x02 a.2)).2
  have hout : out =
      if r1.1 = 0 then (0, r1.2)
      else if a.1 ≠ 0 then (0, a.2)
      else if r2.1 = 0 then (0, r2.2) else (1, r2.2) := rfl
  refine ⟨?_, ?_, hack, ?_, ?_, ?_, ?_⟩
  · rw [hout]
    rcases h1 with e1 | e1
    · have e1' : r1.1 = 0 := e1
      simp [e1']
    · have e1' : r1.1 = 1 := e1
      by_cases ea : a.1 = 0
      · rcases h2 with e2 | e2
        · have e2' : r2.1 = 0 := e2
          simp [e1', ea, e2']
        · have e2' : r2.1 = 1 := e2
          simp [e1', ea, e2']
      · simp [e1', ea]
  · rw [hout]
    split
    · exact Or.inr rfl
    · split
      · exact Or.inr rfl
      · split
        · exact Or.inr rfl
        · exact Or.inl rfl
  · intro hne
    have e1 : r1.1 = 0 := by
      rcases h1 with e1 | e1
      · exact e1
      · exact absurd e1 hne
    rw [hout, if_pos e1]
  · intro e1 ea
    rw [hout, if_neg (by rw [e1]; decide), if_pos ea]
  · intro e1 ea hne
    have e2 : r2.1 = 0 := by
      rcases h2 with e2 | e2
      · exact e2
      · exact absurd e2 hne
    rw [hout, if_neg (by rw [e1]; decide), if_neg (by simp [ea]), if_pos e2]
  · intro e1 ea e2
    rw [hout, if_neg (by rw [e1]; decide), if_neg (by simp [ea]),
      if_neg (by rw [e2]; decide)]

/-! ## The frame writer -/

theorem dropLast_getLast_two {α : Type} (A : List α) (d p : α) :
    (A ++ [d, p]).dropLast.getLast? = some d := by
  rw [show A ++ [d, p] = (A ++ [d]) ++ [p] by simp, List.dropLast_concat]
  simp

theorem getElem_append_two {α : Type} (A : List α) (d p : α) (n : Nat) (h : A.length = n) :
    (A ++ [d, p])[n]? = some d := by
  subst h
  rw [List.getElem?_append_right (Nat.le_refl _)]
  simp

set_option maxRecDepth 100000 in
/-- C2, counterexample: with `cmd_length = 255` and every command byte equal
to 1, the frame is nine bytes long, its data-checksum byte (the one before
the postamble) is `0xFF`, and no byte in that position makes the sum with the
transfer-direction byte and the 255 command bytes vanish modulo 256. -/
theorem C2_counterexample :
    opsBetween (idleWorld []) (writeCommand sampleConsts (fun _ => 1) 255 (idleWorld [])) =
      [sent 0x01, sent 0x00, sent 0x00, sent 0xFF, sent 0x00, sent 0x00, sent 0x01,
       sent 0xFF, sent 0x00] ∧
    ¬ ∃ DCS, DCS < 256 ∧
      (opsBetween (idleWorld [])
        (writeCommand sampleConsts (fun _ => 1) 255 (idleWorld []))).dropLast.getLast? =
        some (sent DCS) ∧
      (DCS + sampleConsts.PN532_HOSTTOPN532 +
        ((List.range 255).map (fun i => (fun _ => 1 : Buffer) i % 256)).sum) % 256 = 0 := by
  have hops : opsBetween (idleWorld [])
      (writeCommand sampleConsts (fun _ => 1) 255 (idleWorld [])) =
      [sent 0x01, sent 0x00, sent 0x00, sent 0xFF, sent 0x00, sent 0x00, sent 0x01,
       sent 0xFF, sent 0x00] := by
    rw [opsBetween_writeCommand]
    decide
  refine ⟨hops, ?_⟩
  rintro ⟨DCS, hlt, hop, hsum⟩
  rw [hops] at hop
  have h1 : sent 0xFF = sent DCS := by simpa using hop
  have h2 : DCS = 0xFF := (sent_inj 0xFF DCS (by decide) hlt h1).symm
  subst h2
  revert hsum
  decide

/-- C2, amended: for every command buffer and every `cmd_length` from 0 to
254, the data-checksum byte that `writeCommand` transmits (the byte before the
postamble, at position `7 + cmd_length` of the frame), added to the
transfer-direction byte and to the command bytes `cmd[0 .. cmd_length-1]`,
sums to 0 modulo 256. -/
theorem C2_data_checksum (c : Consts) (cmd : Buffer) (cmd_length : Nat) (w : World)
    (hlen : cmd_length ≤ 254) :
    ∃ DCS, DCS < 256 ∧
      (opsBetween w (writeCommand c cmd cmd_length w)).dropLast.getLast? = some (sent DCS) ∧
      (opsBetween w (writeCommand c cmd cmd_length w))[7 + cmd_length]? = some (sent DCS) ∧
      (DCS + c.PN532_HOSTTOPN532 +
        ((List.range cmd_length).map (fun i => cmd i % 256)).sum) % 256 = 0 := by
  refine ⟨toUInt8 (~~~(dcsAcc c cmd cmd_length : Int) + 1), ?_, ?_, ?_, ?_⟩
  · rw [toUInt8_compl_add_one]
    exact Nat.mod_lt _ (by decide)
  · rw [opsBetween_writeCommand]
    exact dropLast_getLast_two _ _ _
  · rw [opsBetween_writeCommand]
    refine getElem_append_two _ _ _ _ ?_
    simp [lenField_of_le cmd_length hlen]
    omega
  · have h := dcsAcc_mod c cmd cmd_length
    rw [lenField_of_le cmd_length hlen, Nat.add_sub_cancel] at h
    rw [toUInt8_compl_add_one]
    omega

/-- C2, amended, at a concrete input: three command bytes. -/
theorem C2_data_checksum_witness :
    3 ≤ 254 ∧ ∃ DCS, DCS < 256 ∧
      (opsBetween (idleWorld [])
        (writeCommand sampleConsts (fun i => 10 * i + 7) 3 (idleWorld []))).dropLast.getLast? =
        some (sent DCS) ∧
      (opsBetween (idleWorld [])
        (writeCommand sampleConsts (fun i => 10 * i + 7) 3 (idleWorld [])))[7 + 3]? =
        some (sent DCS) ∧
      (DCS + sampleConsts.PN532_HOSTTOPN532 +
        ((List.range 3).map (fun i => (fun i => 10 * i + 7 : Buffer) i % 256)).sum) % 256 = 0 :=
  ⟨by decide,
   C2_data_checksum sampleConsts (fun i => 10 * i + 7) 3 (idleWorld []) (by decide)⟩

/-- C3: for every 8-bit `cmd_length >= 1`, the fifth and sixth bytes that
`writeCommand` transmits are LEN, the 8-bit value of `cmd_length + 1`, and
LCS, which equals `(256 - (cmd_length + 1)) mod 256`; LEN plus LCS is 0
modulo 256. -/
theorem C3_length_checksum (c : Consts) (cmd : Buffer) (cmd_length : Nat) (w : World)
    (h1 : 1 ≤ cmd_length) (h2 : cmd_length < 256) :
    (opsBetween w (writeCommand c cmd cmd_length w))[4]? =
      some (sent ((cmd_length + 1) % 256)) ∧
    (opsBetween w (writeCommand c cmd cmd_length w))[5]? =
      some (sent ((256 - (cmd_length + 1)) % 256)) ∧
    ((cmd_length + 1) % 256 + (256 - (cmd_length + 1)) % 256) % 256 = 0 := by
  have hl : lenField cmd_length = (cmd_length + 1) % 256 := by
    unfold lenField
    rw [Nat.mod_eq_of_lt h2]
  have hlcs : toUInt8 (~~~(lenField cmd_length : Int) + 1) = (256 - (cmd_length + 1)) % 256 := by
    rw [toUInt8_compl_add_one, hl]
    omega
  refine ⟨?_, ?_, by omega⟩
  · rw [opsBetween_writeCommand]
    simp [frameOps, hl]
  · rw [opsBetween_writeCommand]
    simp [frameOps, hlcs]

/-- C3 at a concrete input: `cmd_length = 255`, where LEN and LCS are both 0. -/
theorem C3_length_checksum_witness :
    (1 ≤ 255 ∧ 255 < 256) ∧
    (opsBetween (idleWorld []) (writeCommand sampleConsts (fun _ => 1) 255 (idleWorld [])))[4]? =
      some (sent ((255 + 1) % 256)) ∧
    (opsBetween (idleWorld []) (writeCommand sampleConsts (fun _ => 1) 255 (idleWorld [])))[5]? =
      some (sent ((256 - (255 + 1)) % 256)) ∧
    ((255 + 1) % 256 + (256 - (255 + 1)) % 256) % 256 = 0 :=
  ⟨by decide,
   C3_length_checksum sampleConsts (fun _ => 1) 255 (idleWorld []) (by decide) (by decide)⟩

/-- C4: for every command buffer and every `cmd_length` from 0 to 254, the
bytes `writeCommand` passes to `SSI_write` are, in order, the data-write
indicator, preamble, two start-code bytes, `cmd_length + 1`, LCS, the
transfer-direction byte, the `cmd_length` command bytes, DCS and the postamble:
`cmd_length + 9` bytes, where DCS is the two's complement of an accumulator
seeded with the transfer-direction byte into which each command byte is folded
modulo 256.  Nothing is loaded from the data register. -/
theorem C4_frame_layout (c : Consts) (cmd : Buffer) (cmd_length : Nat) (w : World)
    (hlen : cmd_length ≤ 254) :
    opsBetween w (writeCommand c cmd cmd_length w) =
      [sent c.PN532_SPI_DATAWRITE, sent c.PN532_PREAMBLE, sent c.PN532_STARTCODE1,
       sent c.PN532_STARTCODE2, sent (cmd_length + 1), sent ((256 - (cmd_length + 1)) % 256),
       sent c.PN532_HOSTTOPN532]
      ++ (List.range cmd_length).map (fun i => sent (cmd i))
      ++ [sent ((256 - (List.range cmd_length).foldl (fun acc i => (acc + cmd i % 256) % 256)
                  (c.PN532_HOSTTOPN532 % 256)) % 256),
          sent c.PN532_POSTAMBLE] ∧
    (opsBetween w (writeCommand c cmd cmd_length w)).length = cmd_length + 9 ∧
    (writeCommand c cmd cmd_length w).loads = w.loads := by
  have hl := lenField_of_le cmd_length hlen
  have hlcs : toUInt8 (~~~(lenField cmd_length : Int) + 1) = (256 - (cmd_length + 1)) % 256 := by
    rw [toUInt8_compl_add_one, hl]
    omega
  have hacc : dcsAcc c cmd cmd_length =
      (List.range cmd_length).foldl (fun acc i => (acc + cmd i % 256) % 256)
        (c.PN532_HOSTTOPN532 % 256) := by
    unfold dcsAcc
    rw [hl, Nat.add_sub_cancel, List.range_eq_range']
  have hacc_lt : dcsAcc c cmd cmd_length < 256 := by
    have h := dcsAcc_mod c cmd cmd_length
    unfold dcsAcc at h ⊢
    generalize (List.range' 0 (lenField cmd_length - 1)) = l at h ⊢
    cases l using List.reverseRecOn with
    | nil => exact Nat.mod_lt _ (by decide)
    | append_singleton l a =>
      rw [List.foldl_append]
      exact Nat.mod_lt _ (by decide)
  have hdcs : toUInt8 (~~~(dcsAcc c cmd cmd_length : Int) + 1) =
      (256 - (List.range cmd_length).foldl (fun acc i => (acc + cmd i % 256) % 256)
        (c.PN532_HOSTTOPN532 % 256)) % 256 := by
    rw [toUInt8_compl_add_one, Nat.mod_eq_of_lt hacc_lt, hacc]
  have hops : opsBetween w (writeCommand c cmd cmd_length w) =
      [sent c.PN532_SPI_DATAWRITE, sent c.PN532_PREAMBLE, sent c.PN532_STARTCODE1,
       sent c.PN532_STARTCODE2, sent (cmd_length + 1), sent ((256 - (cmd_length + 1)) % 256),
       sent c.PN532_HOSTTOPN532]
      ++ (List.range cmd_length).map (fun i => sent (cmd i))
      ++ [sent ((256 - (List.range cmd_length).foldl (fun acc i => (acc + cmd i % 256) % 256)
                  (c.PN532_HOSTTOPN532 % 256)) % 256),
          sent c.PN532_POSTAMBLE] := by
    rw [opsBetween_writeCommand]
    unfold frameOps
    rw [hlcs, hdcs, hl, Nat.add_sub_cancel, List.range_eq_range']
  refine ⟨hops, ?_, ?_⟩
  · rw [hops]
    simp
  · rw [writeCommand_eq]

/-- C4 at a concrete input: the one-byte command `0x02`. -/
theorem C4_frame_layout_witness :
    (1 ≤ 254) ∧
    opsBetween (idleWorld []) (writeCommand sampleConsts (fun _ => 0x02) 1 (idleWorld [])) =
      [sent 0x01, sent 0x00, sent 0x00, sent 0xFF, sent 0x02, sent 0xFE, sent 0x01,
       sent 0x02, sent 0xFD, sent 0x00] := by
  refine ⟨by decide, ?_⟩
  rw [(C4_frame_layout sampleConsts (fun _ => 0x02) 1 (idleWorld []) (by decide)).1]
  decide

/-! ## The acknowledgment validator -/

/-- C5: `readACK` returns 0 if and only if the six bytes it reads through
`readData` (into its local buffer, whatever that held before) are exactly
`0x00 0x00 0xFF 0x00 0xFF 0x00`; for any other six bytes the `int8_t` it
returns is non-zero.  Its only effect on the world is that 6-byte read. -/
theorem C5_readACK (c : Consts) (w : World) (ACK_buffer : Buffer) :
    ((readACK c w).1 = 0 ↔
      (List.range 6).map (readData c ACK_buffer 6 w).1 =
        [0x00, 0x00, 0xFF, 0x00, 0xFF, 0x00]) ∧
    ((List.range 6).map (readData c ACK_buffer 6 w).1 ≠
        [0x00, 0x00, 0xFF, 0x00, 0xFF, 0x00] → (readACK c w).1 ≠ 0) ∧
    (-128 ≤ (readACK c w).1 ∧ (readACK c w).1 ≤ 127) ∧
    (readACK c w).2 = (readData c ACK_buffer 6 w).2 := by
  have hiff : (readACK c w).1 = 0 ↔
      (List.range 6).map (readData c ACK_buffer 6 w).1 =
        [0x00, 0x00, 0xFF, 0x00, 0xFF, 0x00] := by
    rw [(readACK_spec c w).2, ← ack_bytes_iff, readData_eq]
    constructor
    · intro h j hj
      simp only [show j < 6 % 256 by omega, if_true]
      exact h j hj
    · intro h j hj
      have := h j hj
      simpa only [show j < 6 % 256 by omega, if_true] using this
  refine ⟨hiff, fun hne h0 => hne (hiff.1 h0), toInt8_range _, ?_⟩
  rw [(readACK_spec c w).1, readData_eq, readData_eq]

/-! ## The readiness poller -/

theorem failedPoll_iterate_msec (c : Consts) (w : World) (k : Nat) :
    ((failedPoll c)^[k] w).msec = w.msec + 3 * k := by
  induction k with
  | zero => rfl
  | succ k ih =>
    rw [Function.iterate_succ_apply', failedPoll, isReadyForResponse_eq]
    simp only [delay, ih]
    omega

theorem opsBetween_of_bus (w w1 : World) (X : List BusOp) (h : w1.bus = w.bus ++ X) :
    opsBetween w w1 = X := by
  simp [opsBetween, h]

theorem decremented_of_pos (budget : Nat) (h1 : 1 ≤ budget) (h2 : budget < 65536) :
    decremented budget = budget - 1 := by
  unfold decremented
  omega

theorem idleWorld_nil_never_ready (j : Nat) :
    received (idleWorld []) j ≠ sampleConsts.PN532_SPI_READY := by
  simp [received, idleWorld, sampleConsts, reverseBitOrder]

/-- C6, counterexample: with a budget of 0 and a transport that never reports
ready, the 16-bit decrement wraps and `waitToBeReadyForResponse` gives up only
after 65536 readiness polls, not after 0. -/
theorem C6_counterexample :
    (∀ j, received (idleWorld []) j ≠ sampleConsts.PN532_SPI_READY) ∧
    (waitToBeReadyForResponse sampleConsts 0 (idleWorld [])).1 = 0 ∧
    (waitToBeReadyForResponse sampleConsts 0 (idleWorld [])).2.loads =
      (idleWorld []).loads + 65536 ∧
    opsBetween (idleWorld []) (waitToBeReadyForResponse sampleConsts 0 (idleWorld [])).2 =
      pollOps sampleConsts (idleWorld []) 65536 ∧
    ¬ ((waitToBeReadyForResponse sampleConsts 0 (idleWorld [])).2.loads =
      (idleWorld []).loads + 0) := by
  have h := wait_timeout sampleConsts 65535 0 (idleWorld []) (by decide)
    (fun j _ => idleWorld_nil_never_ready j)
  rw [h]
  refine ⟨idleWorld_nil_never_ready, rfl, ?_, ?_, ?_⟩
  · exact failedPoll_iterate_loads _ _ _
  · exact opsBetween_of_bus _ _ _ (failedPoll_iterate_bus _ _ _)
  · show ¬ (((failedPoll sampleConsts)^[65535 + 1] (idleWorld [])).loads = _)
    rw [failedPoll_iterate_loads]
    omega

/-- C6, amended: for every retry budget from 1 to 65535 and every transport
whose status byte is not the ready constant on any of the first `budget`
polls, `waitToBeReadyForResponse(budget)` returns 0 after exactly `budget`
readiness polls, each one store of the status-read indicator and one load. -/
theorem C6_wait_timeout (c : Consts) (budget : Nat) (w : World)
    (h1 : 1 ≤ budget) (h2 : budget < 65536)
    (hnr : ∀ j, j < budget → received w j ≠ c.PN532_SPI_READY) :
    (waitToBeReadyForResponse c budget w).1 = 0 ∧
    (waitToBeReadyForResponse c budget w).2.loads = w.loads + budget ∧
    opsBetween w (waitToBeReadyForResponse c budget w).2 = pollOps c w budget ∧
    (pollOps c w budget).length = 2 * budget := by
  have hd := decremented_of_pos budget h1 h2
  have h := wait_timeout c (budget - 1) budget w hd (fun j hj => hnr j (by omega))
  have hb : budget - 1 + 1 = budget := by omega
  rw [h, hb]
  refine ⟨rfl, failedPoll_iterate_loads _ _ _,
    opsBetween_of_bus _ _ _ (failedPoll_iterate_bus _ _ _), ?_⟩
  clear h hb hd hnr h1 h2
  induction budget with
  | zero => rfl
  | succ n ih =>
    simp only [pollOps, List.length_append, ih, List.length_cons, List.length_nil]
    omega

/-- C6, amended, at a concrete input: budget 3 on a transport that only
ever presents zero status bytes. -/
theorem C6_wait_timeout_witness :
    (1 ≤ 3 ∧ 3 < 65536 ∧ ∀ j, j < 3 → received (idleWorld []) j ≠ sampleConsts.PN532_SPI_READY) ∧
    (waitToBeReadyForResponse sampleConsts 3 (idleWorld [])).1 = 0 ∧
    (waitToBeReadyForResponse sampleConsts 3 (idleWorld [])).2.loads = (idleWorld []).loads + 3 ∧
    opsBetween (idleWorld []) (waitToBeReadyForResponse sampleConsts 3 (idleWorld [])).2 =
      pollOps sampleConsts (idleWorld []) 3 ∧
    (pollOps sampleConsts (idleWorld []) 3).length = 2 * 3 :=
  ⟨⟨by decide, by decide, fun j _ => idleWorld_nil_never_ready j⟩,
   C6_wait_timeout sampleConsts 3 (idleWorld []) (by decide) (by decide)
     (fun j _ => idleWorld_nil_never_ready j)⟩

theorem wait_ready_world (c : Consts) (k wait_time : Nat) (w : World)
    (hk : k ≤ decremented wait_time)
    (hnr : ∀ j, j < k → received w j ≠ c.PN532_SPI_READY)
    (hr : received w k = c.PN532_SPI_READY) :
    (waitToBeReadyForResponse c wait_time w).1 = 1 ∧
    (waitToBeReadyForResponse c wait_time w).2.loads = w.loads + (k + 1) ∧
    (waitToBeReadyForResponse c wait_time w).2.SSI0_DR_in = w.SSI0_DR_in ∧
    (waitToBeReadyForResponse c wait_time w).2.bus = w.bus ++ pollOps c w (k + 1) ∧
    (waitToBeReadyForResponse c wait_time w).2.msec = w.msec + 3 * k + 2 ∧
    (waitToBeReadyForResponse c wait_time w).2.packet_buffer = w.packet_buffer ∧
    (waitToBeReadyForResponse c wait_time w).2.GPIO_PORTF_DATA_R = w.GPIO_PORTF_DATA_R := by
  rw [wait_ready c k wait_time w hk hnr hr, isReadyForResponse_eq]
  refine ⟨rfl, ?_, ?_, ?_, ?_, ?_, ?_⟩
  · simp only [failedPoll_iterate_loads]
    omega
  · simp only [failedPoll_iterate_in]
  · simp only [failedPoll_iterate_bus, failedPoll_iterate_loads, failedPoll_iterate_in,
      pollOps, List.append_assoc]
  · simp only [failedPoll_iterate_msec]
  · simp only [failedPoll_iterate_packet_buffer]
  · simp only [failedPoll_iterate_portF]

/-- C7: for every budget from 1 to 65535 and every sequence of status bytes,
`waitToBeReadyForResponse(budget)` returns 1 if and only if one of the first
`budget` polls reads the ready constant (and 0 otherwise); when the first
ready status is on poll `k + 1` it returns right after that poll, having made
exactly `k + 1` polls and no delay after the last one; each poll is one store
of the status-read indicator followed by one load of a status byte. -/
theorem C7_wait_ready (c : Consts) (budget : Nat) (w : World)
    (h1 : 1 ≤ budget) (h2 : budget < 65536) :
    ((waitToBeReadyForResponse c budget w).1 = 1 ↔
      ∃ k, k < budget ∧ received w k = c.PN532_SPI_READY) ∧
    ((waitToBeReadyForResponse c budget w).1 = 1 ∨
      (waitToBeReadyForResponse c budget w).1 = 0) ∧
    (∀ k, k < budget → (∀ j, j < k → received w j ≠ c.PN532_SPI_READY) →
      received w k = c.PN532_SPI_READY →
        (waitToBeReadyForResponse c budget w).1 = 1 ∧
        (waitToBeReadyForResponse c budget w).2.loads = w.loads + (k + 1) ∧
        opsBetween w (waitToBeReadyForResponse c budget w).2 = pollOps c w (k + 1) ∧
        (waitToBeReadyForResponse c budget w).2.msec = w.msec + 3 * k + 2) ∧
    (∀ w0 : World, opsBetween w0 (isReadyForResponse c w0).2 =
      [sent c.PN532_SPI_STATREAD, BusOp.rx (w0.SSI0_DR_in w0.loads)]) := by
  have hd := decremented_of_pos budget h1 h2
  have hf := wait_fst c budget w
  refine ⟨?_, hf.2.symm, ?_, ?_⟩
  · rw [hf.1, hd]
    constructor
    · rintro ⟨j, hj, hr⟩
      exact ⟨j, by omega, hr⟩
    · rintro ⟨j, hj, hr⟩
      exact ⟨j, by omega, hr⟩
  · intro k hk hnr hr
    have hw := wait_ready_world c k budget w (by omega) hnr hr
    exact ⟨hw.1, hw.2.1, opsBetween_of_bus _ _ _ hw.2.2.2.1, hw.2.2.2.2.1⟩
  · intro w0
    exact opsBetween_of_bus _ _ _ (by rw [isReadyForResponse_eq])

/-- C7 at a concrete input: budget 5, the second status byte is the first
ready one, so the wait succeeds after exactly two polls. -/
theorem C7_wait_ready_witness :
    (1 ≤ 5 ∧ 5 < 65536) ∧
    (waitToBeReadyForResponse sampleConsts 5 (idleWorld [0x00, 0x80])).1 = 1 ∧
    (waitToBeReadyForResponse sampleConsts 5 (idleWorld [0x00, 0x80])).2.loads = 2 ∧
    opsBetween (idleWorld [0x00, 0x80])
      (waitToBeReadyForResponse sampleConsts 5 (idleWorld [0x00, 0x80])).2 =
      [sent 0x02, BusOp.rx 0x00, sent 0x02, BusOp.rx 0x80] := by
  have h := (C7_wait_ready sampleConsts 5 (idleWorld [0x00, 0x80]) (by decide)
    (by decide)).2.2.1 1 (by decide) (by decide) (by decide)
  exact ⟨by decide, h.1, h.2.1, h.2.2.1⟩

/-! ## Paths through the orchestrator, in terms of the transport -/

theorem received_congr (w w1 : World) (n : Nat) (hin : w1.SSI0_DR_in = w.SSI0_DR_in)
    (hl : w1.loads = w.loads + n) (j : Nat) : received w1 j = received w (n + j) := by
  simp only [received, hin, hl, Nat.add_assoc]

theorem pollOps_congr (c : Consts) (w w1 : World) (hin : w1.SSI0_DR_in = w.SSI0_DR_in)
    (hl : w1.loads = w.loads) (k : Nat) : pollOps c w1 k = pollOps c w k := by
  induction k with
  | zero => rfl
  | succ k ih => simp only [pollOps, ih, hin, hl]

theorem writeCommand_in (c : Consts) (cmd : Buffer) (cmd_length : Nat) (w : World) :
    (writeCommand c cmd cmd_length w).SSI0_DR_in = w.SSI0_DR_in := by
  rw [writeCommand_eq]

theorem writeCommand_loads (c : Consts) (cmd : Buffer) (cmd_length : Nat) (w : World) :
    (writeCommand c cmd cmd_length w).loads = w.loads := by
  rw [writeCommand_eq]

theorem writeCommand_bus (c : Consts) (cmd : Buffer) (cmd_length : Nat) (w : World) :
    (writeCommand c cmd cmd_length w).bus = w.bus ++ frameOps c cmd cmd_length := by
  rw [writeCommand_eq]

theorem writeCommand_packet_buffer (c : Consts) (cmd : Buffer) (cmd_length : Nat) (w : World) :
    (writeCommand c cmd cmd_length w).packet_buffer = w.packet_buffer := by
  rw [writeCommand_eq]

theorem writeCommand_portF (c : Consts) (cmd : Buffer) (cmd_length : Nat) (w : World) :
    (writeCommand c cmd cmd_length w).GPIO_PORTF_DATA_R = w.GPIO_PORTF_DATA_R := by
  rw [writeCommand_eq]

theorem received_writeCommand (c : Consts) (cmd : Buffer) (cmd_length : Nat) (w : World)
    (j : Nat) : received (writeCommand c cmd cmd_length w) j = received w j := by
  rw [received_congr w _ 0 (writeCommand_in c cmd cmd_length w)
    (writeCommand_loads c cmd cmd_length w), Nat.zero_add]

theorem readACK_world (c : Consts) (w : World) :
    (readACK c w).2 =
      { w with GPIO_PORTA_DATA_R := bracketed w, msec := w.msec + 2, loads := w.loads + 6,
               bus := w.bus ++ sent c.PN532_SPI_DATAREAD :: loadOps w 6 } := by
  rw [(readACK_spec c w).1, readData_eq]

theorem writeCommandACK_unfold (c : Consts) (cmd : Buffer) (cmd_length wait_time : Nat)
    (w : World) :
    writeCommandACK c cmd cmd_length wait_time w =
      if (waitToBeReadyForResponse c wait_time (writeCommand c cmd cmd_length w)).1 = 0 then
        (0, (waitToBeReadyForResponse c wait_time (writeCommand c cmd cmd_length w)).2)
      else if (readACK c
          (waitToBeReadyForResponse c wait_time (writeCommand c cmd cmd_length w)).2).1 ≠ 0 then
        (0, (readACK c
          (waitToBeReadyForResponse c wait_time (writeCommand c cmd cmd_length w)).2).2)
      else if (waitToBeReadyForResponse c wait_time
          (PORTF_or 0x02 (readACK c (waitToBeReadyForResponse c wait_time
              (writeCommand c cmd cmd_length w)).2).2)).1 = 0 then
        (0, (waitToBeReadyForResponse c wait_time
          (PORTF_or 0x02 (readACK c (waitToBeReadyForResponse c wait_time
              (writeCommand c cmd cmd_length w)).2).2)).2)
      else
        (1, (waitToBeReadyForResponse c wait_time
          (PORTF_or 0x02 (readACK c (waitToBeReadyForResponse c wait_time
              (writeCommand c cmd cmd_length w)).2).2)).2) :=
  rfl

/-- First gate fails: no status byte within the budget is the ready constant. -/
theorem writeCommandACK_timeout (c : Consts) (cmd : Buffer) (cmd_length wait_time k : Nat)
    (w : World) (hk : decremented wait_time = k)
    (hnr : ∀ j, j ≤ k → received w j ≠ c.PN532_SPI_READY) :
    writeCommandACK c cmd cmd_length wait_time w =
      (0, (failedPoll c)^[k + 1] (writeCommand c cmd cmd_length w)) := by
  have hw := wait_timeout c k wait_time (writeCommand c cmd cmd_length w) hk
    (fun j hj => by rw [received_writeCommand]; exact hnr j hj)
  rw [writeCommandACK_unfold, hw]
  rfl

/-- Second gate fails: the first ready status is number `k`, and the six
bytes after it are not the ACK frame. -/
theorem writeCommandACK_bad_ack (c : Consts) (cmd : Buffer) (cmd_length wait_time k : Nat)
    (w : World) (hk : k ≤ decremented wait_time)
    (hnr : ∀ j, j < k → received w j ≠ c.PN532_SPI_READY)
    (hr : received w k = c.PN532_SPI_READY)
    (hack : ¬ ∀ j, j < 6 → received w (k + 1 + j) = ACK_frame j) :
    (writeCommandACK c cmd cmd_length wait_time w).1 = 0 ∧
    (writeCommandACK c cmd cmd_length wait_time w).2.loads = w.loads + (k + 1) + 6 ∧
    (writeCommandACK c cmd cmd_length wait_time w).2.bus =
      w.bus ++ frameOps c cmd cmd_length ++ pollOps c w (k + 1) ++
        sent c.PN532_SPI_DATAREAD ::
          (List.range 6).map (fun i => BusOp.rx (w.SSI0_DR_in (w.loads + (k + 1) + i))) ∧
    (writeCommandACK c cmd cmd_length wait_time w).2.packet_buffer = w.packet_buffer ∧
    (writeCommandACK c cmd cmd_length wait_time w).2.GPIO_PORTF_DATA_R =
      w.GPIO_PORTF_DATA_R := by
  have hin1 := writeCommand_in c cmd cmd_length w
  have hl1 := writeCommand_loads c cmd cmd_length w
  have hrec := received_writeCommand c cmd cmd_length w
  have hw := wait_ready_world c k wait_time (writeCommand c cmd cmd_length w) hk
    (fun j hj => by rw [hrec]; exact hnr j hj) (by rw [hrec]; exact hr)
  obtain ⟨hw1, hwl, hwin, hwbus, -, hwpb, hwF⟩ := hw
  have ha : (readACK c
      (waitToBeReadyForResponse c wait_time (writeCommand c cmd cmd_length w)).2).1 ≠ 0 := by
    rw [Ne, (readACK_spec c _).2]
    intro h
    apply hack
    intro j hj
    have := h j hj
    rwa [received_congr w _ (k + 1) (by rw [hwin, hin1]) (by rw [hwl, hl1])] at this
  rw [writeCommandACK_unfold, if_neg (by rw [hw1]; decide), if_pos ha, readACK_world]
  refine ⟨rfl, ?_, ?_, ?_, ?_⟩
  · simp only [hwl, hl1]
  · simp only [hwbus, loadOps, hwin, hwl, hin1, hl1, writeCommand_bus, List.append_assoc,
      pollOps_congr c w (writeCommand c cmd cmd_length w) hin1 hl1]
  · simp only [hwpb, writeCommand_packet_buffer]
  · simp only [hwF, writeCommand_portF]

/-- All three gates pass: the first ready status is number `k1`, the six bytes
after it are the ACK frame, and of the status bytes after those the first
ready one is number `k2`. -/
theorem writeCommandACK_success (c : Consts) (cmd : Buffer) (cmd_length wait_time k1 k2 : Nat)
    (w : World) (hk1 : k1 ≤ decremented wait_time)
    (hnr1 : ∀ j, j < k1 → received w j ≠ c.PN532_SPI_READY)
    (hr1 : received w k1 = c.PN532_SPI_READY)
    (hack : ∀ j, j < 6 → received w (k1 + 1 + j) = ACK_frame j)
    (hk2 : k2 ≤ decremented wait_time)
    (hnr2 : ∀ j, j < k2 → received w (k1 + 7 + j) ≠ c.PN532_SPI_READY)
    (hr2 : received w (k1 + 7 + k2) = c.PN532_SPI_READY) :
    (writeCommandACK c cmd cmd_length wait_time w).1 = 1 ∧
    (writeCommandACK c cmd cmd_length wait_time w).2.loads = w.loads + (k1 + 7 + (k2 + 1)) ∧
    (writeCommandACK c cmd cmd_length wait_time w).2.SSI0_DR_in = w.SSI0_DR_in ∧
    (writeCommandACK c cmd cmd_length wait_time w).2.packet_buffer = w.packet_buffer := by
  have hin1 := writeCommand_in c cmd cmd_length w
  have hl1 := writeCommand_loads c cmd cmd_length w
  have hrec := received_writeCommand c cmd cmd_length w
  obtain ⟨hw1, hwl, hwin, -, -, hwpb, -⟩ :=
    wait_ready_world c k1 wait_time (writeCommand c cmd cmd_length w) hk1
      (fun j hj => by rw [hrec]; exact hnr1 j hj) (by rw [hrec]; exact hr1)
  have ha : (readACK c
      (waitToBeReadyForResponse c wait_time (writeCommand c cmd cmd_length w)).2).1 = 0 := by
    rw [(readACK_spec c _).2]
    intro j hj
    rw [received_congr w _ (k1 + 1) (by rw [hwin, hin1]) (by rw [hwl, hl1])]
    exact hack j hj
  have hin3 : (PORTF_or 0x02 (readACK c (waitToBeReadyForResponse c wait_time
      (writeCommand c cmd cmd_length w)).2).2).SSI0_DR_in = w.SSI0_DR_in := by
    rw [readACK_world]
    simp only [PORTF_or, hwin, hin1]
  have hl3 : (PORTF_or 0x02 (readACK c (waitToBeReadyForResponse c wait_time
      (writeCommand c cmd cmd_length w)).2).2).loads = w.loads + (k1 + 7) := by
    rw [readACK_world]
    simp only [PORTF_or, hwl, hl1]
    omega
  have hpb3 : (PORTF_or 0x02 (readACK c (waitToBeReadyForResponse c wait_time
      (writeCommand c cmd cmd_length w)).2).2).packet_buffer = w.packet_buffer := by
    rw [readACK_world]
    simp only [PORTF_or, hwpb, writeCommand_packet_buffer]
  obtain ⟨hv1, hvl, hvin, -, -, hvpb, -⟩ :=
    wait_ready_world c k2 wait_time _ hk2
      (fun j hj => by rw [received_congr w _ (k1 + 7) hin3 hl3]; exact hnr2 j hj)
      (by rw [received_congr w _ (k1 + 7) hin3 hl3]; exact hr2)
  rw [writeCommandACK_unfold, if_neg (by rw [hw1]; decide), if_neg (by simp [ha]),
    if_neg (by rw [hv1]; decide)]
  refine ⟨rfl, ?_, ?_, ?_⟩
  · simp only [hvl, hl3]
    omega
  · simp only [hvin, hin3]
  · simp only [hvpb, hpb3]

/-! ## The firmware-version query -/

theorem frameOps_firmware (c : Consts) (w : World) :
    frameOps c (withOpcode c w).packet_buffer 1 = firmwareFrame c := by
  have h2 : toUInt8 (~~~((2 : Nat) : Int) + 1) = 0xFE := by
    rw [toUInt8_compl_add_one]
  have hd : dcsAcc c (withOpcode c w).packet_buffer 1 =
      (c.PN532_HOSTTOPN532 % 256 + c.PN532_COMMAND_GETFIRMWAREVERSION % 256) % 256 := by
    simp [dcsAcc, lenField, withOpcode, List.range']
  have hs : sent ((withOpcode c w).packet_buffer 0) = sent c.PN532_COMMAND_GETFIRMWAREVERSION := by
    simp [sent, withOpcode]
  have hl : lenField 1 = 2 := by decide
  unfold frameOps
  rw [hd, hl, h2]
  simp only [toUInt8_compl_add_one, Nat.mod_mod, Nat.reduceSub, List.range', List.map, hs]
  rfl

theorem getFirmwareVersion_fail (c : Consts) (w : World)
    (h : (writeCommandACK c (withOpcode c w).packet_buffer 1 100 (withOpcode c w)).1 = 0) :
    PN532_getFirmwareVersion c w =
      (0, (writeCommandACK c (withOpcode c w).packet_buffer 1 100 (withOpcode c w)).2) := by
  show (if (writeCommandACK c (withOpcode c w).packet_buffer 1 100 (withOpcode c w)).1 = 0
    then _ else _) = _
  rw [if_pos h]
  rfl

theorem shl8_or (x y : Nat) (hx : x < 2 ^ 24) (hy : y < 256) :
    (x <<< 8) % 2 ^ 32 ||| y = x * 256 + y := by
  have h := Nat.mul_add_lt_is_or (i := 8) (b := y) (by omega) x
  rw [Nat.shiftLeft_eq, Nat.mod_eq_of_lt (by omega), Nat.mul_comm, ← h]

theorem getFirmwareVersion_ok (c : Consts) (w : World)
    (h : (writeCommandACK c (withOpcode c w).packet_buffer 1 100 (withOpcode c w)).1 ≠ 0) :
    PN532_getFirmwareVersion c w =
      (let r := (writeCommandACK c (withOpcode c w).packet_buffer 1 100 (withOpcode c w)).2;
       (received r 0 * 2 ^ 24 + received r 1 * 2 ^ 16 + received r 2 * 2 ^ 8 + received r 3,
        { (readData c (PORTF_set 0x08 r).packet_buffer 12 (PORTF_set 0x08 r)).2 with
          packet_buffer := (readData c (PORTF_set 0x08 r).packet_buffer 12 (PORTF_set 0x08 r)).1 })) := by
  have hdef : PN532_getFirmwareVersion c w =
      (let r := (writeCommandACK c (withOpcode c w).packet_buffer 1 100 (withOpcode c w)).2;
       let d := readData c (PORTF_set 0x08 r).packet_buffer 12 (PORTF_set 0x08 r);
       let x1 := ((d.1 0 % 256) <<< 8) % 2 ^ 32 ||| (d.1 1 % 256);
       let x2 := (x1 <<< 8) % 2 ^ 32 ||| (d.1 2 % 256);
       let x3 := (x2 <<< 8) % 2 ^ 32 ||| (d.1 3 % 256);
       (x3, { d.2 with packet_buffer := d.1 })) := by
    show (if (writeCommandACK c (withOpcode c w).packet_buffer 1 100 (withOpcode c w)).1 = 0
      then _ else _) = _
    rw [if_neg h]
    rfl
  rw [hdef]
  simp only
  refine Prod.ext ?_ rfl
  simp only [readData_eq]
  have e0 : received (PORTF_set 0x08
      (writeCommandACK c (withOpcode c w).packet_buffer 1 100 (withOpcode c w)).2) =
      received (writeCommandACK c (withOpcode c w).packet_buffer 1 100 (withOpcode c w)).2 := rfl
  rw [e0]
  generalize (writeCommandACK c (withOpcode c w).packet_buffer 1 100 (withOpcode c w)).2 = r
  have b0 := received_lt r 0
  have b1 := received_lt r 1
  have b2 := received_lt r 2
  have b3 := received_lt r 3
  simp only [show (0 : Nat) < 12 % 256 by decide, show (1 : Nat) < 12 % 256 by decide,
    show (2 : Nat) < 12 % 256 by decide, show (3 : Nat) < 12 % 256 by decide, if_true,
    Nat.mod_eq_of_lt b0, Nat.mod_eq_of_lt b1, Nat.mod_eq_of_lt b2, Nat.mod_eq_of_lt b3]
  rw [shl8_or _ _ (by omega) b1, shl8_or _ _ (by omega) b2, shl8_or _ _ (by omega) b3]
  omega

/-- C8: on every transport on which the exchange succeeds (`writeCommandACK`
returns 1), `PN532_getFirmwareVersion` reads exactly 12 response bytes with
`readData` (one store of the data-read indicator, then 12 loads, stored in
`packet_buffer[0..11]`) and returns the first four packed big-endian; a
response beginning 0, 0, 1, 0 yields `0x00000100`. -/
theorem C8_firmware_version (c : Consts) (w : World)
    (hok : (writeCommandACK c (withOpcode c w).packet_buffer 1 100 (withOpcode c w)).1 = 1) :
    (PN532_getFirmwareVersion c w).1 =
      received (writeCommandACK c (withOpcode c w).packet_buffer 1 100 (withOpcode c w)).2 0
          * 2 ^ 24 +
        received (writeCommandACK c (withOpcode c w).packet_buffer 1 100 (withOpcode c w)).2 1
          * 2 ^ 16 +
        received (writeCommandACK c (withOpcode c w).packet_buffer 1 100 (withOpcode c w)).2 2
          * 2 ^ 8 +
        received (writeCommandACK c (withOpcode c w).packet_buffer 1 100 (withOpcode c w)).2 3 ∧
    (PN532_getFirmwareVersion c w).2.loads =
      (writeCommandACK c (withOpcode c w).packet_buffer 1 100 (withOpcode c w)).2.loads + 12 ∧
    opsBetween (writeCommandACK c (withOpcode c w).packet_buffer 1 100 (withOpcode c w)).2
        (PN532_getFirmwareVersion c w).2 =
      sent c.PN532_SPI_DATAREAD ::
        loadOps (writeCommandACK c (withOpcode c w).packet_buffer 1 100 (withOpcode c w)).2 12 ∧
    (∀ i, i < 12 → (PN532_getFirmwareVersion c w).2.packet_buffer i =
      received (writeCommandACK c (withOpcode c w).packet_buffer 1 100 (withOpcode c w)).2 i) ∧
    (received (writeCommandACK c (withOpcode c w).packet_buffer 1 100 (withOpcode c w)).2 0 = 0 →
     received (writeCommandACK c (withOpcode c w).packet_buffer 1 100 (withOpcode c w)).2 1 = 0 →
     received (writeCommandACK c (withOpcode c w).packet_buffer 1 100 (withOpcode c w)).2 2 = 1 →
     received (writeCommandACK c (withOpcode c w).packet_buffer 1 100 (withOpcode c w)).2 3 = 0 →
     (PN532_getFirmwareVersion c w).1 = 0x00000100) := by
  have hne : (writeCommandACK c (withOpcode c w).packet_buffer 1 100 (withOpcode c w)).1 ≠ 0 := by
    rw [hok]
    decide
  rw [getFirmwareVersion_ok c w hne]
  generalize (writeCommandACK c (withOpcode c w).packet_buffer 1 100 (withOpcode c w)).2 = r
  refine ⟨rfl, ?_, ?_, ?_, ?_⟩
  · simp only [readData_eq]
    rfl
  · refine opsBetween_of_bus _ _ _ ?_
    simp only [readData_eq]
    rfl
  · intro i hi
    simp only [readData_eq, show i < 12 % 256 by omega, if_true]
    rfl
  · intro e0 e1 e2 e3
    simp only [e0, e1, e2, e3]
    decide

theorem firmwareStream_succeeds :
    (writeCommandACK sampleConsts (withOpcode sampleConsts (idleWorld firmwareStream)).packet_buffer
      1 100 (withOpcode sampleConsts (idleWorld firmwareStream))).1 = 1 ∧
    (writeCommandACK sampleConsts (withOpcode sampleConsts (idleWorld firmwareStream)).packet_buffer
      1 100 (withOpcode sampleConsts (idleWorld firmwareStream))).2.loads = 8 ∧
    (writeCommandACK sampleConsts (withOpcode sampleConsts (idleWorld firmwareStream)).packet_buffer
      1 100 (withOpcode sampleConsts (idleWorld firmwareStream))).2.SSI0_DR_in =
      fun k => firmwareStream.getD k 0 := by
  have h := writeCommandACK_success sampleConsts
    (withOpcode sampleConsts (idleWorld firmwareStream)).packet_buffer 1 100 0 0
    (withOpcode sampleConsts (idleWorld firmwareStream)) (by decide) (by decide) (by decide)
    (by decide) (by decide) (by decide) (by decide)
  exact ⟨h.1, h.2.1, h.2.2.1⟩

/-- C8 at a concrete input: the end-to-end scenario of the specification. -/
theorem C8_firmware_version_witness :
    (writeCommandACK sampleConsts (withOpcode sampleConsts (idleWorld firmwareStream)).packet_buffer
      1 100 (withOpcode sampleConsts (idleWorld firmwareStream))).1 = 1 ∧
    (PN532_getFirmwareVersion sampleConsts (idleWorld firmwareStream)).1 = 0x00000100 ∧
    (PN532_getFirmwareVersion sampleConsts (idleWorld firmwareStream)).2.loads = 20 := by
  obtain ⟨h1, hl, hin⟩ := firmwareStream_succeeds
  have h := C8_firmware_version sampleConsts (idleWorld firmwareStream) h1
  have hrec : ∀ i, received (writeCommandACK sampleConsts
      (withOpcode sampleConsts (idleWorld firmwareStream)).packet_buffer
      1 100 (withOpcode sampleConsts (idleWorld firmwareStream))).2 i =
      reverseBitOrder (firmwareStream.getD (8 + i) 0 % 256) := by
    intro i
    simp only [received, hl, hin]
  refine ⟨h1, h.2.2.2.2 ?_ ?_ ?_ ?_, ?_⟩
  · rw [hrec]; decide
  · rw [hrec]; decide
  · rw [hrec]; decide
  · rw [hrec]; decide
  · rw [h.2.1, hl]

theorem pollOps_length (c : Consts) (w : World) (k : Nat) : (pollOps c w k).length = 2 * k := by
  induction k with
  | zero => rfl
  | succ n ih =>
    simp only [pollOps, List.length_append, ih, List.length_cons, List.length_nil]
    omega

/-- C9: on every transport that reports ready on the first poll and then
returns six bytes that are not the ACK constant, `PN532_getFirmwareVersion`
returns 0, and its accesses to the bus are the command frame, one readiness
poll and the 6-byte ACK read, in this order and nothing after: 7 loads in all,
no second readiness poll, no 12-byte response read (and port F is untouched). -/
theorem C9_firmware_bad_ack (c : Consts) (w : World)
    (hr : received w 0 = c.PN532_SPI_READY)
    (hack : (List.range 6).map (fun j => received w (1 + j)) ≠
      [0x00, 0x00, 0xFF, 0x00, 0xFF, 0x00]) :
    (PN532_getFirmwareVersion c w).1 = 0 ∧
    (PN532_getFirmwareVersion c w).2.loads = w.loads + 7 ∧
    opsBetween w (PN532_getFirmwareVersion c w).2 =
      firmwareFrame c ++
      [sent c.PN532_SPI_STATREAD, BusOp.rx (w.SSI0_DR_in w.loads)] ++
      sent c.PN532_SPI_DATAREAD ::
        (List.range 6).map (fun i => BusOp.rx (w.SSI0_DR_in (w.loads + 1 + i))) ∧
    (PN532_getFirmwareVersion c w).2.GPIO_PORTF_DATA_R = w.GPIO_PORTF_DATA_R := by
  have hack2 : ¬ ∀ j, j < 6 → received (withOpcode c w) (0 + 1 + j) = ACK_frame j := by
    intro h
    apply hack
    rw [← ack_bytes_iff]
    intro j hj
    have := h j hj
    rwa [Nat.zero_add] at this
  obtain ⟨h0, hl, hbus, -, hF⟩ :=
    writeCommandACK_bad_ack c (withOpcode c w).packet_buffer 1 100 0 (withOpcode c w)
      (Nat.zero_le _) (fun j hj => absurd hj (Nat.not_lt_zero j)) hr hack2
  rw [getFirmwareVersion_fail c w h0]
  refine ⟨rfl, ?_, ?_, ?_⟩
  · rw [hl]
    rfl
  · refine opsBetween_of_bus _ _ _ ?_
    rw [hbus, frameOps_firmware]
    simp only [pollOps, List.nil_append, Nat.zero_add, Nat.add_zero, List.append_assoc]
    rfl
  · rw [hF]
    rfl

/-- C9 at a concrete input: ready at once, then an ACK whose last byte is wrong. -/
theorem C9_firmware_bad_ack_witness :
    (received (idleWorld [0x80, 0x00, 0x00, 0xFF, 0x00, 0xFF, 0x80]) 0 =
      sampleConsts.PN532_SPI_READY ∧
     (List.range 6).map
        (fun j => received (idleWorld [0x80, 0x00, 0x00, 0xFF, 0x00, 0xFF, 0x80]) (1 + j)) ≠
      [0x00, 0x00, 0xFF, 0x00, 0xFF, 0x00]) ∧
    (PN532_getFirmwareVersion sampleConsts
      (idleWorld [0x80, 0x00, 0x00, 0xFF, 0x00, 0xFF, 0x80])).1 = 0 ∧
    (PN532_getFirmwareVersion sampleConsts
      (idleWorld [0x80, 0x00, 0x00, 0xFF, 0x00, 0xFF, 0x80])).2.loads = 7 := by
  have h := C9_firmware_bad_ack sampleConsts
    (idleWorld [0x80, 0x00, 0x00, 0xFF, 0x00, 0xFF, 0x80]) (by decide) (by decide)
  exact ⟨⟨by decide, by decide⟩, h.1, h.2.1⟩

/-- C10: on every transport that does not report ready on any of the first
100 polls, `PN532_getFirmwareVersion` returns 0 after sending the command
frame and making exactly 100 readiness polls (its fixed budget): the 100 loads
are all status loads, so neither the ACK nor any response byte is read. -/
theorem C10_firmware_never_ready (c : Consts) (w : World)
    (hnr : ∀ j, j < 100 → received w j ≠ c.PN532_SPI_READY) :
    (PN532_getFirmwareVersion c w).1 = 0 ∧
    (PN532_getFirmwareVersion c w).2.loads = w.loads + 100 ∧
    opsBetween w (PN532_getFirmwareVersion c w).2 = firmwareFrame c ++ pollOps c w 100 ∧
    (pollOps c w 100).length = 2 * 100 ∧
    (PN532_getFirmwareVersion c w).2.GPIO_PORTF_DATA_R = w.GPIO_PORTF_DATA_R := by
  have hto := writeCommandACK_timeout c (withOpcode c w).packet_buffer 1 100 99 (withOpcode c w)
    (by decide) (fun j hj => hnr j (by omega))
  have h0 : (writeCommandACK c (withOpcode c w).packet_buffer 1 100 (withOpcode c w)).1 = 0 := by
    rw [hto]
  rw [getFirmwareVersion_fail c w h0, hto]
  refine ⟨rfl, ?_, ?_, pollOps_length c w 100, ?_⟩
  · show ((failedPoll c)^[99 + 1] _).loads = _
    rw [failedPoll_iterate_loads, writeCommand_loads]
    rfl
  · refine opsBetween_of_bus _ _ _ ?_
    show ((failedPoll c)^[99 + 1] _).bus = _
    rw [failedPoll_iterate_bus, writeCommand_bus, frameOps_firmware,
      pollOps_congr c (withOpcode c w) _ (writeCommand_in _ _ _ _) (writeCommand_loads _ _ _ _),
      pollOps_congr c w (withOpcode c w) rfl rfl, List.append_assoc]
    rfl
  · show ((failedPoll c)^[99 + 1] _).GPIO_PORTF_DATA_R = _
    rw [failedPoll_iterate_portF, writeCommand_portF]
    rfl

/-- C10 at a concrete input: a transport that only ever presents zero. -/
theorem C10_firmware_never_ready_witness :
    (∀ j, j < 100 → received (idleWorld []) j ≠ sampleConsts.PN532_SPI_READY) ∧
    (PN532_getFirmwareVersion sampleConsts (idleWorld [])).1 = 0 ∧
    (PN532_getFirmwareVersion sampleConsts (idleWorld [])).2.loads = 100 := by
  have h := C10_firmware_never_ready sampleConsts (idleWorld [])
    (fun j _ => idleWorld_nil_never_ready j)
  exact ⟨fun j _ => idleWorld_nil_never_ready j, h.1, h.2.1⟩

/-! ## The bit-order transform -/

/-- C11: for every byte `b` (0..255), `reverseBitOrder (reverseBitOrder b) = b`:
the bit-order transform is an involution. -/
theorem C11_reverseBitOrder_involution (b : Nat) (h : b < 256) :
    reverseBitOrder (reverseBitOrder b) = b :=
  reverseBitOrder_twice b h

/-- C11 at a concrete input: `0x01` reverses to `0x80` and back. -/
theorem C11_reverseBitOrder_involution_witness :
    0x01 < 256 ∧ reverseBitOrder 0x01 = 0x80 ∧ reverseBitOrder (reverseBitOrder 0x01) = 0x01 :=
  ⟨by decide, by decide, C11_reverseBitOrder_involution 0x01 (by decide)⟩

set_option maxRecDepth 100000 in
theorem reverseBitOrder_bits (b : Nat) (h : b < 256) :
    (∀ i, i < 8 → (reverseBitOrder b).testBit i = b.testBit (7 - i)) ∧
    reverseBitOrder_int b < 256 := by
  revert b
  decide

/-- C12: for every byte `b` and every bit position `i` in 0..7, bit `i` of
`reverseBitOrder b` is bit `7 - i` of `b`; the sum of the eight shifted terms
is below 256, so the conversion to `uint8_t` drops nothing and the result is
that sum. -/
theorem C12_reverseBitOrder_bits (b : Nat) (h : b < 256) :
    (∀ i, i < 8 → (reverseBitOrder b).testBit i = b.testBit (7 - i)) ∧
    reverseBitOrder_int b < 256 ∧
    reverseBitOrder b = reverseBitOrder_int b ∧
    reverseBitOrder b < 256 := by
  have hb := reverseBitOrder_bits b h
  have hdef : reverseBitOrder b = reverseBitOrder_int b % 256 := rfl
  exact ⟨hb.1, hb.2, by rw [hdef, Nat.mod_eq_of_lt hb.2], reverseBitOrder_lt b⟩

/-- C12 at a concrete input: `0xB4 = 0b10110100` reverses to `0x2D = 0b00101101`. -/
theorem C12_reverseBitOrder_bits_witness :
    0xB4 < 256 ∧ reverseBitOrder 0xB4 = 0x2D ∧
    (∀ i, i < 8 → (reverseBitOrder 0xB4).testBit i = (0xB4).testBit (7 - i)) ∧
    reverseBitOrder_int 0xB4 < 256 :=
  ⟨by decide, by decide, (C12_reverseBitOrder_bits 0xB4 (by decide)).1,
   (C12_reverseBitOrder_bits 0xB4 (by decide)).2.1⟩

/-! ## Termination and frame conditions of the polling loop -/

theorem decremented_lt_pow (wait_time : Nat) : decremented wait_time < 65536 := by
  unfold decremented
  omega

/-- Every run of the loop is one of two shapes: `decremented wait_time + 1`
failed checks, or `k` failed checks and a successful one with
`k ≤ decremented wait_time`. -/
theorem wait_cases (c : Consts) (wait_time : Nat) (w : World) :
    waitToBeReadyForResponse c wait_time w =
        (0, failedPoll c ((failedPoll c)^[decremented wait_time] w)) ∨
    ∃ k, k ≤ decremented wait_time ∧
      waitToBeReadyForResponse c wait_time w =
        (1, (isReadyForResponse c ((failedPoll c)^[k] w)).2) := by
  by_cases h : ∃ j, j ≤ decremented wait_time ∧ received w j = c.PN532_SPI_READY
  · right
    have hk := Nat.find_spec h
    have hmin : ∀ j, j < Nat.find h → received w j ≠ c.PN532_SPI_READY := by
      intro j hj hr
      exact Nat.find_min h hj ⟨by omega, hr⟩
    exact ⟨Nat.find h, hk.1, wait_ready c (Nat.find h) wait_time w hk.1 hmin hk.2⟩
  · left
    have hnr : ∀ j, j ≤ decremented wait_time → received w j ≠ c.PN532_SPI_READY := by
      intro j hj hr
      exact h ⟨j, hj, hr⟩
    rw [wait_timeout c (decremented wait_time) wait_time w rfl hnr,
      Function.iterate_succ_apply']

theorem isReadyForResponse_loads (c : Consts) (w : World) :
    (isReadyForResponse c w).2.loads = w.loads + 1 := by
  rw [isReadyForResponse_eq]

theorem isReadyForResponse_bus (c : Consts) (w : World) :
    (isReadyForResponse c w).2.bus =
      w.bus ++ [sent c.PN532_SPI_STATREAD, BusOp.rx (w.SSI0_DR_in w.loads)] := by
  rw [isReadyForResponse_eq]

theorem isReadyForResponse_packet_buffer (c : Consts) (w : World) :
    (isReadyForResponse c w).2.packet_buffer = w.packet_buffer := by
  rw [isReadyForResponse_eq]

theorem failedPoll_succ_loads (c : Consts) (w : World) (k : Nat) :
    (failedPoll c ((failedPoll c)^[k] w)).loads = w.loads + (k + 1) := by
  rw [← Function.iterate_succ_apply' (failedPoll c) k w, failedPoll_iterate_loads]

theorem failedPoll_succ_bus (c : Consts) (w : World) (k : Nat) :
    (failedPoll c ((failedPoll c)^[k] w)).bus = w.bus ++ pollOps c w (k + 1) := by
  rw [← Function.iterate_succ_apply' (failedPoll c) k w, failedPoll_iterate_bus]

theorem failedPoll_succ_packet_buffer (c : Consts) (w : World) (k : Nat) :
    (failedPoll c ((failedPoll c)^[k] w)).packet_buffer = w.packet_buffer := by
  rw [← Function.iterate_succ_apply' (failedPoll c) k w, failedPoll_iterate_packet_buffer]

/-- C13: for every `wait_time` (taken as a 16-bit value, 0 included) and
every sequence of status bytes, `waitToBeReadyForResponse` returns, with
result 0 or 1, after `k` readiness polls for some `k` from 1 to 65536: its
accesses to the bus are exactly those `k` polls, and `k` is at most the
decremented budget plus one. -/
theorem C13_wait_bounded (c : Consts) (wait_time : Nat) (w : World) :
    ((waitToBeReadyForResponse c wait_time w).1 = 0 ∨
      (waitToBeReadyForResponse c wait_time w).1 = 1) ∧
    ∃ k, 1 ≤ k ∧ k ≤ decremented wait_time + 1 ∧ k ≤ 65536 ∧
      (waitToBeReadyForResponse c wait_time w).2.loads = w.loads + k ∧
      opsBetween w (waitToBeReadyForResponse c wait_time w).2 = pollOps c w k ∧
      (pollOps c w k).length = 2 * k := by
  have hd := decremented_lt_pow wait_time
  rcases wait_cases c wait_time w with h | ⟨k, hk, h⟩
  · rw [h]
    refine ⟨Or.inl rfl, decremented wait_time + 1, by omega, Nat.le_refl _, by omega, ?_, ?_,
      pollOps_length _ _ _⟩
    · exact failedPoll_succ_loads c w _
    · exact opsBetween_of_bus _ _ _ (failedPoll_succ_bus c w _)
  · rw [h]
    refine ⟨Or.inr rfl, k + 1, by omega, by omega, by omega, ?_, ?_, pollOps_length _ _ _⟩
    · rw [isReadyForResponse_loads, failedPoll_iterate_loads]
      omega
    · refine opsBetween_of_bus _ _ _ ?_
      rw [isReadyForResponse_bus, failedPoll_iterate_bus, failedPoll_iterate_loads,
        failedPoll_iterate_in, List.append_assoc]
      rfl


/-! ## Chip-select and the command buffer -/

theorem bracketed_testBit (w : World) : (bracketed w).testBit 3 = true := by
  simp only [bracketed, SS_HIGH, SS_LOW, Nat.testBit_mod_two_pow, Nat.testBit_or]
  have h8 : Nat.testBit 8 3 = true := by decide
  simp [h8]

theorem csHigh_writeCommand (c : Consts) (cmd : Buffer) (cmd_length : Nat) (w : World) :
    csHigh (writeCommand c cmd cmd_length w) := by
  unfold csHigh
  rw [writeCommand_eq]
  exact bracketed_testBit w

theorem csHigh_readData (c : Consts) (buf : Buffer) (n : Nat) (w : World) :
    csHigh (readData c buf n w).2 := by
  unfold csHigh
  rw [readData_eq]
  exact bracketed_testBit w

theorem csHigh_isReadyForResponse (c : Consts) (w : World) :
    csHigh (isReadyForResponse c w).2 := by
  unfold csHigh
  rw [isReadyForResponse_eq]
  exact bracketed_testBit w

theorem csHigh_failedPoll (c : Consts) (w : World) : csHigh (failedPoll c w) :=
  csHigh_isReadyForResponse c w

theorem csHigh_wait (c : Consts) (wait_time : Nat) (w : World) :
    csHigh (waitToBeReadyForResponse c wait_time w).2 := by
  rcases wait_cases c wait_time w with h | ⟨k, _, h⟩
  · rw [h]
    exact csHigh_failedPoll c _
  · rw [h]
    exact csHigh_isReadyForResponse c _

theorem csHigh_readACK (c : Consts) (w : World) : csHigh (readACK c w).2 := by
  rw [(readACK_spec c w).1]
  exact csHigh_readData c _ 6 w

theorem csHigh_writeCommandACK (c : Consts) (cmd : Buffer) (cmd_length wait_time : Nat)
    (w : World) : csHigh (writeCommandACK c cmd cmd_length wait_time w).2 := by
  rw [writeCommandACK_unfold]
  split_ifs
  · exact csHigh_wait c _ _
  · exact csHigh_readACK c _
  · exact csHigh_wait c _ _
  · exact csHigh_wait c _ _

theorem csHigh_getFirmwareVersion (c : Consts) (w : World) :
    csHigh (PN532_getFirmwareVersion c w).2 := by
  by_cases h : (writeCommandACK c (withOpcode c w).packet_buffer 1 100 (withOpcode c w)).1 = 0
  · rw [getFirmwareVersion_fail c w h]
    exact csHigh_writeCommandACK c _ _ _ _
  · rw [getFirmwareVersion_ok c w h]
    exact csHigh_readData c _ 12 _

/-- C14: chip-select is deasserted (bit `0x08` of `GPIO_PORTA_DATA_R` is set)
in the world that each of `writeCommand`, `readData` and `isReadyForResponse`
returns, whatever the register held before, and therefore in the world that
`waitToBeReadyForResponse`, `readACK`, `writeCommandACK` and
`PN532_getFirmwareVersion` return, on every transport and whatever the result. -/
theorem C14_chip_select_deasserted (c : Consts) (cmd data_buffer : Buffer)
    (cmd_length data_length wait_time : Nat) (w : World) :
    csHigh (writeCommand c cmd cmd_length w) ∧
    csHigh (readData c data_buffer data_length w).2 ∧
    csHigh (isReadyForResponse c w).2 ∧
    csHigh (waitToBeReadyForResponse c wait_time w).2 ∧
    csHigh (readACK c w).2 ∧
    csHigh (writeCommandACK c cmd cmd_length wait_time w).2 ∧
    csHigh (PN532_getFirmwareVersion c w).2 :=
  ⟨csHigh_writeCommand c cmd cmd_length w, csHigh_readData c data_buffer data_length w,
   csHigh_isReadyForResponse c w, csHigh_wait c wait_time w, csHigh_readACK c w,
   csHigh_writeCommandACK c cmd cmd_length wait_time w, csHigh_getFirmwareVersion c w⟩

theorem wait_packet_buffer (c : Consts) (wait_time : Nat) (w : World) :
    (waitToBeReadyForResponse c wait_time w).2.packet_buffer = w.packet_buffer := by
  rcases wait_cases c wait_time w with h | ⟨k, _, h⟩
  · rw [h]
    exact failedPoll_succ_packet_buffer c w _
  · rw [h, isReadyForResponse_packet_buffer, failedPoll_iterate_packet_buffer]

theorem readACK_packet_buffer (c : Consts) (w : World) :
    (readACK c w).2.packet_buffer = w.packet_buffer := by
  rw [readACK_world]

/-! ## The command buffer in memory -/

theorem readData_loop_at_eq (p L : Nat) :
    ∀ (n i : Nat) (m : Memory) (w : World), L % 256 - i = n →
      readData_loop_at p L i m w =
        ((fun a => if p + i ≤ a ∧ a < p + i + n then received w (a - (p + i)) else m a),
         { w with loads := w.loads + n,
                  bus := w.bus ++ (List.range n).map
                    (fun k => BusOp.rx (w.SSI0_DR_in (w.loads + k))) }) := by
  intro n
  induction n with
  | zero =>
    intro i m w h
    rw [readData_loop_at]
    have hc : ¬ (i < L % 256) := by omega
    rw [if_neg hc]
    refine Prod.ext ?_ (by simp)
    funext a
    have h2 : ¬ (p + i ≤ a ∧ a < p + i + 0) := by omega
    exact (if_neg h2).symm
  | succ n ih =>
    intro i m w h
    rw [readData_loop_at]
    have hc : i < L % 256 := by omega
    have hi : (i + 1) % 256 = i + 1 := by omega
    rw [if_pos hc, hi, ih (i + 1) _ _ (by omega)]
    refine Prod.ext ?_ ?_
    · funext a
      simp only [SSI_read, received]
      by_cases ha : a = p + i
      · subst ha
        simp
      · rw [Function.update_noteq ha]
        by_cases h1 : p + (i + 1) ≤ a ∧ a < p + (i + 1) + n
        · have h2 : p + i ≤ a ∧ a < p + i + (n + 1) := by omega
          have h3 : w.loads + 1 + (a - (p + (i + 1))) = w.loads + (a - (p + i)) := by omega
          simp [h1, h2, h3]
        · have h2 : ¬ (p + i ≤ a ∧ a < p + i + (n + 1)) := by omega
          simp [h1, h2]
    · simp [SSI_read, List.range_succ_eq_map, Nat.add_assoc, Nat.add_comm 1]

/-- `readData` on a pointer changes memory exactly at the `data_length`
addresses from `data_buffer` on, and its effect on the world is that of
`readData` on the view from the pointer. -/
theorem readData_at_eq (c : Consts) (p n : Nat) (m : Memory) (w : World) :
    readData_at c p n m w =
      ((fun a => if p ≤ a ∧ a < p + n % 256 then received w (a - p) else m a),
       (readData c (fun i => m (p + i)) n w).2) := by
  rw [readData_eq]
  simp only [readData_at]
  rw [readData_loop_at_eq p n (n % 256) 0 _ _ (by simp)]
  simp [SSI_write, SS_HIGH, SS_LOW, delay, bracketed, sent, loadOps, received]

theorem memcmp_from_congr (a a2 b : Buffer) :
    ∀ (n i : Nat), (∀ j, j < n → a (i + j) = a2 (i + j)) →
      memcmp_from a b i n = memcmp_from a2 b i n := by
  intro n
  induction n with
  | zero => intro i _; rfl
  | succ n ih =>
    intro i h
    have h0 : a i = a2 i := by simpa using h 0 (Nat.succ_pos n)
    rw [memcmp_from, memcmp_from, h0, ih (i + 1)]
    intro j hj
    have := h (j + 1) (by omega)
    rwa [show i + (j + 1) = i + 1 + j by omega] at this

theorem readACK_at_eq (c : Consts) (p : Nat) (m : Memory) (w : World) :
    readACK_at c p m w =
      ((readACK c w).1,
       (fun a => if p ≤ a ∧ a < p + 6 then received w (a - p) else m a),
       (readACK c w).2) := by
  simp only [readACK_at, readACK, readData_at_eq, readData_eq, memcmp]
  refine Prod.ext ?_ rfl
  show toInt8 _ = toInt8 _
  congr 1
  apply memcmp_from_congr
  intro j hj
  have h1 : p ≤ p + (0 + j) ∧ p + (0 + j) < p + 6 % 256 := by omega
  have h2 : 0 + j < 6 % 256 := by omega
  simp only [h1, h2, and_self, if_true]
  congr 1
  omega

/-- `writeCommandACK` on a pointer returns the result and the world of
`writeCommandACK` on the view from that pointer. -/
theorem writeCommandACK_at_refines (c : Consts) (cmd cmd_length wait_time ACK_buffer : Nat)
    (m : Memory) (w : World) :
    (writeCommandACK_at c cmd cmd_length wait_time ACK_buffer m w).1 =
      (writeCommandACK c (fun i => m (cmd + i)) cmd_length wait_time w).1 ∧
    (writeCommandACK_at c cmd cmd_length wait_time ACK_buffer m w).2.2 =
      (writeCommandACK c (fun i => m (cmd + i)) cmd_length wait_time w).2 := by
  rw [writeCommandACK_unfold]
  simp only [writeCommandACK_at, writeCommand_at, readACK_at_eq]
  split_ifs <;> exact ⟨rfl, rfl⟩

/-- The memory `writeCommandACK` leaves: the one it was given when the first
gate fails, and otherwise that memory with the six ACK bytes stored in the
array local to `readACK`. -/
theorem writeCommandACK_at_memory (c : Consts) (cmd cmd_length wait_time ACK_buffer : Nat)
    (m : Memory) (w : World) :
    (writeCommandACK_at c cmd cmd_length wait_time ACK_buffer m w).2.1 =
      if (waitToBeReadyForResponse c wait_time
          (writeCommand c (fun i => m (cmd + i)) cmd_length w)).1 = 0 then m
      else fun a => if ACK_buffer ≤ a ∧ a < ACK_buffer + 6 then
        received (waitToBeReadyForResponse c wait_time
          (writeCommand c (fun i => m (cmd + i)) cmd_length w)).2 (a - ACK_buffer)
        else m a := by
  simp only [writeCommandACK_at, writeCommand_at, readACK_at_eq]
  split_ifs <;> rfl

theorem writeCommandACK_packet_buffer (c : Consts) (cmd : Buffer)
    (cmd_length wait_time : Nat) (w : World) :
    (writeCommandACK c cmd cmd_length wait_time w).2.packet_buffer = w.packet_buffer := by
  rw [writeCommandACK_unfold]
  split_ifs
  · rw [wait_packet_buffer, writeCommand_packet_buffer]
  · rw [readACK_packet_buffer, wait_packet_buffer, writeCommand_packet_buffer]
  · rw [wait_packet_buffer]
    show (readACK c _).2.packet_buffer = _
    rw [readACK_packet_buffer, wait_packet_buffer, writeCommand_packet_buffer]
  · rw [wait_packet_buffer]
    show (readACK c _).2.packet_buffer = _
    rw [readACK_packet_buffer, wait_packet_buffer, writeCommand_packet_buffer]

/-- C15: `writeCommandACK` leaves the caller's command buffer byte for byte
unchanged, whatever it returns.  On the explicit memory, with `cmd` an address
and the array local to `readACK` at an address that does not overlap the
`cmd_length` command bytes (C gives a live automatic array storage of its own):
every command byte is the same after the call as before; indeed every address
outside the six bytes of the local array is; the six ACK bytes, when they are
read, are stored in that local array; and result and world are those of
`writeCommandACK` on the view from `cmd`, in which the global `packet_buffer`
is unchanged too. -/
theorem C15_command_buffer_unchanged (c : Consts) (cmd cmd_length wait_time ACK_buffer : Nat)
    (m : Memory) (w : World)
    (hdisj : ∀ i, i < cmd_length → ∀ j, j < 6 → cmd + i ≠ ACK_buffer + j) :
    (∀ i, i < cmd_length →
      (writeCommandACK_at c cmd cmd_length wait_time ACK_buffer m w).2.1 (cmd + i) =
        m (cmd + i)) ∧
    (∀ a, (∀ j, j < 6 → a ≠ ACK_buffer + j) →
      (writeCommandACK_at c cmd cmd_length wait_time ACK_buffer m w).2.1 a = m a) ∧
    ((waitToBeReadyForResponse c wait_time
        (writeCommand c (fun i => m (cmd + i)) cmd_length w)).1 ≠ 0 →
      ∀ j, j < 6 →
        (writeCommandACK_at c cmd cmd_length wait_time ACK_buffer m w).2.1 (ACK_buffer + j) =
          received (waitToBeReadyForResponse c wait_time
            (writeCommand c (fun i => m (cmd + i)) cmd_length w)).2 j) ∧
    (writeCommandACK_at c cmd cmd_length wait_time ACK_buffer m w).1 =
      (writeCommandACK c (fun i => m (cmd + i)) cmd_length wait_time w).1 ∧
    (writeCommandACK_at c cmd cmd_length wait_time ACK_buffer m w).2.2 =
      (writeCommandACK c (fun i => m (cmd + i)) cmd_length wait_time w).2 ∧
    (writeCommandACK_at c cmd cmd_length wait_time ACK_buffer m w).2.2.packet_buffer =
      w.packet_buffer ∧
    (writeCommandACK c w.packet_buffer cmd_length wait_time w).2.packet_buffer =
      w.packet_buffer := by
  have href := writeCommandACK_at_refines c cmd cmd_length wait_time ACK_buffer m w
  have houtside : ∀ a, (∀ j, j < 6 → a ≠ ACK_buffer + j) →
      (writeCommandACK_at c cmd cmd_length wait_time ACK_buffer m w).2.1 a = m a := by
    intro a ha
    rw [writeCommandACK_at_memory]
    split_ifs with h0
    · rfl
    · have hn : ¬ (ACK_buffer ≤ a ∧ a < ACK_buffer + 6) := by
        rintro ⟨h1, h2⟩
        exact ha (a - ACK_buffer) (by omega) (by omega)
      simp only [hn, if_false]
  refine ⟨?_, houtside, ?_, href.1, href.2, ?_, writeCommandACK_packet_buffer _ _ _ _ _⟩
  · intro i hi
    exact houtside (cmd + i) (fun j hj => hdisj i hi j hj)
  · intro hne j hj
    rw [writeCommandACK_at_memory, if_neg hne]
    have h1 : ACK_buffer ≤ ACK_buffer + j ∧ ACK_buffer + j < ACK_buffer + 6 := by omega
    simp only [h1, and_self, if_true, Nat.add_sub_cancel_left]
  · rw [href.2]
    exact writeCommandACK_packet_buffer _ _ _ _ _

theorem firmwareStream_acknowledged (cmd : Nat) (m : Memory) :
    (writeCommandACK sampleConsts (fun i => m (cmd + i)) 1 100 (idleWorld firmwareStream)).1 = 1 ∧
    (waitToBeReadyForResponse sampleConsts 100
      (writeCommand sampleConsts (fun i => m (cmd + i)) 1 (idleWorld firmwareStream))).1 ≠ 0 ∧
    ∀ j, received (waitToBeReadyForResponse sampleConsts 100
      (writeCommand sampleConsts (fun i => m (cmd + i)) 1 (idleWorld firmwareStream))).2 j =
      received (idleWorld firmwareStream) (1 + j) := by
  have hs := writeCommandACK_success sampleConsts (fun i => m (cmd + i)) 1 100 0 0
    (idleWorld firmwareStream) (by decide) (by decide) (by decide)
    (by decide) (by decide) (by decide) (by decide)
  obtain ⟨hw1, hwl, hwin, -, -, -, -⟩ :=
    wait_ready_world sampleConsts 0 100
      (writeCommand sampleConsts (fun i => m (cmd + i)) 1 (idleWorld firmwareStream))
      (Nat.zero_le _) (fun j hj => absurd hj (Nat.not_lt_zero j))
      (by rw [received_writeCommand]; decide)
  refine ⟨hs.1, by rw [hw1]; decide, ?_⟩
  intro j
  rw [received_congr (idleWorld firmwareStream) _ 1
    (by rw [hwin, writeCommand_in]) (by rw [hwl, writeCommand_loads])]

/-- C15 at a concrete input: the command byte at address 0 and the array local
to `readACK` at address 100.  The exchange succeeds, the command byte is still
`0x02`, and the third ACK byte `0xFF` sits in the local array. -/
theorem C15_command_buffer_unchanged_witness :
    (∀ i, i < 1 → ∀ j, j < 6 → 0 + i ≠ 100 + j) ∧
    (writeCommandACK_at sampleConsts 0 1 100 100 (fun _ => 0x02)
      (idleWorld firmwareStream)).1 = 1 ∧
    (writeCommandACK_at sampleConsts 0 1 100 100 (fun _ => 0x02)
      (idleWorld firmwareStream)).2.1 0 = 0x02 ∧
    (writeCommandACK_at sampleConsts 0 1 100 100 (fun _ => 0x02)
      (idleWorld firmwareStream)).2.1 102 = 0xFF := by
  have h := C15_command_buffer_unchanged sampleConsts 0 1 100 100 (fun _ => 0x02)
    (idleWorld firmwareStream) (by decide)
  obtain ⟨hok, hne, hrec⟩ := firmwareStream_acknowledged 0 (fun _ => 0x02)
  refine ⟨by decide, ?_, ?_, ?_⟩
  · rw [h.2.2.2.1]
    exact hok
  · exact h.1 0 (by decide)
  · have h2 := h.2.2.1 hne 2 (by decide)
    rw [hrec] at h2
    rw [show (102 : Nat) = 100 + 2 from rfl, h2]
    decide

/-- The no-overlap hypothesis is needed, and the memory model can tell: were the
six ACK bytes read into the command buffer itself (here both at address 0),
the command byte `0x02` would be overwritten by the first ACK byte `0x00`. -/
theorem aliased_ACK_buffer_clobbers :
    (writeCommandACK_at sampleConsts 0 1 100 0 (fun _ => 0x02)
      (idleWorld firmwareStream)).2.1 0 = 0x00 ∧
    (fun _ => 0x02 : Memory) 0 = 0x02 := by
  obtain ⟨-, hne, hrec⟩ := firmwareStream_acknowledged 0 (fun _ => 0x02)
  refine ⟨?_, rfl⟩
  rw [writeCommandACK_at_memory, if_neg hne]
  simp only [Nat.le_refl, Nat.zero_add, Nat.zero_lt_succ, and_self, if_true, hrec]
  decide

/-! ## The frame reader -/

/-- C16: for every buffer and every 8-bit `data_length`, `readData` stores the
data-read indicator once, then loads the data register exactly `data_length`
times; element `i` below `data_length` of the buffer becomes the bit-reversed
`i`-th raw byte, whatever that byte is, and every element from `data_length`
on is left as it was. -/
theorem C16_readData (c : Consts) (data_buffer : Buffer) (data_length : Nat) (w : World)
    (hn : data_length < 256) :
    opsBetween w (readData c data_buffer data_length w).2 =
      sent c.PN532_SPI_DATAREAD ::
        (List.range data_length).map (fun i => BusOp.rx (w.SSI0_DR_in (w.loads + i))) ∧
    (readData c data_buffer data_length w).2.loads = w.loads + data_length ∧
    (∀ i, i < data_length → (readData c data_buffer data_length w).1 i =
      reverseBitOrder (w.SSI0_DR_in (w.loads + i) % 256)) ∧
    (∀ i, data_length ≤ i → (readData c data_buffer data_length w).1 i = data_buffer i) := by
  have hm : data_length % 256 = data_length := Nat.mod_eq_of_lt hn
  rw [readData_eq, hm]
  refine ⟨opsBetween_of_bus _ _ _ rfl, rfl, ?_, ?_⟩
  · intro i hi
    simp only [hi, if_true]
    rfl
  · intro i hi
    have : ¬ i < data_length := by omega
    simp only [this, if_false]

/-- C16 at a concrete input: three bytes read into a buffer that held 7 everywhere. -/
theorem C16_readData_witness :
    (3 < 256) ∧
    (readData sampleConsts (fun _ => 7) 3 (idleWorld [0x80, 0x01, 0xFF])).1 0 = 0x01 ∧
    (readData sampleConsts (fun _ => 7) 3 (idleWorld [0x80, 0x01, 0xFF])).1 1 = 0x80 ∧
    (readData sampleConsts (fun _ => 7) 3 (idleWorld [0x80, 0x01, 0xFF])).1 2 = 0xFF ∧
    (readData sampleConsts (fun _ => 7) 3 (idleWorld [0x80, 0x01, 0xFF])).1 3 = 7 ∧
    opsBetween (idleWorld [0x80, 0x01, 0xFF])
      (readData sampleConsts (fun _ => 7) 3 (idleWorld [0x80, 0x01, 0xFF])).2 =
      [sent 0x03, BusOp.rx 0x80, BusOp.rx 0x01, BusOp.rx 0xFF] := by
  have h := C16_readData sampleConsts (fun _ => 7) 3 (idleWorld [0x80, 0x01, 0xFF]) (by decide)
  refine ⟨by decide, ?_, ?_, ?_, ?_, ?_⟩
  · rw [h.2.2.1 0 (by decide)]; decide
  · rw [h.2.2.1 1 (by decide)]; decide
  · rw [h.2.2.1 2 (by decide)]; decide
  · rw [h.2.2.2 3 (by decide)]
  · rw [h.1]; decide

/-! ## The zero sentinel -/

theorem writeCommandACK_fst (c : Consts) (cmd : Buffer) (cmd_length wait_time : Nat)
    (w : World) :
    (writeCommandACK c cmd cmd_length wait_time w).1 = 0 ∨
    (writeCommandACK c cmd cmd_length wait_time w).1 = 1 := by
  rw [writeCommandACK_unfold]
  split_ifs
  · exact Or.inl rfl
  · exact Or.inl rfl
  · exact Or.inl rfl
  · exact Or.inr rfl

theorem zeroVersionStream_succeeds :
    (writeCommandACK sampleConsts
      (withOpcode sampleConsts (idleWorld zeroVersionStream)).packet_buffer
      1 100 (withOpcode sampleConsts (idleWorld zeroVersionStream))).1 = 1 ∧
    (writeCommandACK sampleConsts
      (withOpcode sampleConsts (idleWorld zeroVersionStream)).packet_buffer
      1 100 (withOpcode sampleConsts (idleWorld zeroVersionStream))).2.loads = 8 ∧
    (writeCommandACK sampleConsts
      (withOpcode sampleConsts (idleWorld zeroVersionStream)).packet_buffer
      1 100 (withOpcode sampleConsts (idleWorld zeroVersionStream))).2.SSI0_DR_in =
      fun k => zeroVersionStream.getD k 0 := by
  have h := writeCommandACK_success sampleConsts
    (withOpcode sampleConsts (idleWorld zeroVersionStream)).packet_buffer 1 100 0 0
    (withOpcode sampleConsts (idleWorld zeroVersionStream)) (by decide) (by decide) (by decide)
    (by decide) (by decide) (by decide) (by decide)
  exact ⟨h.1, h.2.1, h.2.2.1⟩

/-- C17: `PN532_getFirmwareVersion` returns 0 whenever `writeCommandACK` does
not return 1; and 0 is also what it returns on a transport on which the
exchange fully succeeds (ready on the first poll, exact ACK, ready on the
next poll, so `writeCommandACK` returns 1) and whose 12 response bytes are all
zero.  A result of 0 therefore does not imply that the operation failed. -/
theorem C17_zero_sentinel_ambiguous :
    (∀ (c : Consts) (w : World),
      (writeCommandACK c (withOpcode c w).packet_buffer 1 100 (withOpcode c w)).1 ≠ 1 →
        (PN532_getFirmwareVersion c w).1 = 0) ∧
    (received (idleWorld zeroVersionStream) 0 = sampleConsts.PN532_SPI_READY ∧
     (List.range 6).map (fun j => received (idleWorld zeroVersionStream) (1 + j)) =
       [0x00, 0x00, 0xFF, 0x00, 0xFF, 0x00] ∧
     received (idleWorld zeroVersionStream) 7 = sampleConsts.PN532_SPI_READY ∧
     (List.range 12).map (fun j => received (idleWorld zeroVersionStream) (8 + j)) =
       [0, 0, 0, 0, 0, 0, 0, 0, 0, 0, 0, 0] ∧
     (writeCommandACK sampleConsts
        (withOpcode sampleConsts (idleWorld zeroVersionStream)).packet_buffer
        1 100 (withOpcode sampleConsts (idleWorld zeroVersionStream))).1 = 1 ∧
     (PN532_getFirmwareVersion sampleConsts (idleWorld zeroVersionStream)).1 = 0 ∧
     (PN532_getFirmwareVersion sampleConsts (idleWorld zeroVersionStream)).2.loads = 20) := by
  constructor
  · intro c w hne
    have h0 : (writeCommandACK c (withOpcode c w).packet_buffer 1 100 (withOpcode c w)).1 = 0 := by
      rcases writeCommandACK_fst c (withOpcode c w).packet_buffer 1 100 (withOpcode c w) with h | h
      · exact h
      · exact absurd h hne
    rw [getFirmwareVersion_fail c w h0]
  · obtain ⟨h1, hl, hin⟩ := zeroVersionStream_succeeds
    have hne : (writeCommandACK sampleConsts
        (withOpcode sampleConsts (idleWorld zeroVersionStream)).packet_buffer
        1 100 (withOpcode sampleConsts (idleWorld zeroVersionStream))).1 ≠ 0 := by
      rw [h1]
      decide
    have hrec : ∀ i, received (writeCommandACK sampleConsts
        (withOpcode sampleConsts (idleWorld zeroVersionStream)).packet_buffer
        1 100 (withOpcode sampleConsts (idleWorld zeroVersionStream))).2 i =
        reverseBitOrder (zeroVersionStream.getD (8 + i) 0 % 256) := by
      intro i
      simp only [received, hl, hin]
    refine ⟨by decide, by decide, by decide, by decide, h1, ?_, ?_⟩
    · rw [getFirmwareVersion_ok _ _ hne]
      simp only [hrec]
      decide
    · rw [getFirmwareVersion_ok _ _ hne]
      simp only [readData_eq]
      show _ + 12 % 256 = 20
      have : (PORTF_set 0x08 (writeCommandACK sampleConsts
        (withOpcode sampleConsts (idleWorld zeroVersionStream)).packet_buffer
        1 100 (withOpcode sampleConsts (idleWorld zeroVersionStream))).2).loads = 8 := hl
      rw [this]

/-! ## The length wrap of the frame writer -/

theorem frameOps_255 (c : Consts) (cmd : Buffer) :
    frameOps c cmd 255 =
      [sent c.PN532_SPI_DATAWRITE, sent c.PN532_PREAMBLE, sent c.PN532_STARTCODE1,
       sent c.PN532_STARTCODE2, sent 0, sent 0, sent c.PN532_HOSTTOPN532,
       sent ((256 - c.PN532_HOSTTOPN532 % 256) % 256), sent c.PN532_POSTAMBLE] := by
  have hl : lenField 255 = 0 := by decide
  have hd : dcsAcc c cmd 255 = c.PN532_HOSTTOPN532 % 256 := by
    simp [dcsAcc, hl]
  unfold frameOps
  rw [hd, hl]
  simp only [toUInt8_compl_add_one, Nat.mod_mod]
  rfl

theorem frameOps_of_le (c : Consts) (cmd : Buffer) (cmd_length : Nat) (hlen : cmd_length ≤ 254) :
    frameOps c cmd cmd_length =
      [sent c.PN532_SPI_DATAWRITE, sent c.PN532_PREAMBLE, sent c.PN532_STARTCODE1,
       sent c.PN532_STARTCODE2, sent (cmd_length + 1),
       sent (toUInt8 (~~~((cmd_length + 1 : Nat) : Int) + 1)), sent c.PN532_HOSTTOPN532]
      ++ ((List.range cmd_length).map (fun i => sent (cmd i))
      ++ [sent (toUInt8 (~~~(dcsAcc c cmd cmd_length : Int) + 1)), sent c.PN532_POSTAMBLE]) := by
  unfold frameOps
  rw [lenField_of_le cmd_length hlen, Nat.add_sub_cancel, List.range_eq_range', List.append_assoc]

/-- C18: for `cmd_length = 255` the 8-bit increment wraps: the frame is the
four leading bytes, a LEN byte of 0, an LCS byte of 0, the transfer-direction
byte, a data checksum that is the two's complement of the transfer-direction
byte alone, and the postamble, nine bytes with none of the caller's command
bytes; for every `cmd_length` from 0 to 254 LEN is `cmd_length + 1`, the
bytes after the transfer-direction byte are the `cmd_length` command bytes,
and the frame has `cmd_length + 9` bytes. -/
theorem C18_length_wrap (c : Consts) (cmd : Buffer) (w : World) :
    opsBetween w (writeCommand c cmd 255 w) =
      [sent c.PN532_SPI_DATAWRITE, sent c.PN532_PREAMBLE, sent c.PN532_STARTCODE1,
       sent c.PN532_STARTCODE2, sent 0, sent 0, sent c.PN532_HOSTTOPN532,
       sent ((256 - c.PN532_HOSTTOPN532 % 256) % 256), sent c.PN532_POSTAMBLE] ∧
    (opsBetween w (writeCommand c cmd 255 w)).length = 9 ∧
    (∀ cmd_length, cmd_length ≤ 254 →
      (opsBetween w (writeCommand c cmd cmd_length w))[4]? = some (sent (cmd_length + 1)) ∧
      (opsBetween w (writeCommand c cmd cmd_length w))[6]? = some (sent c.PN532_HOSTTOPN532) ∧
      ((opsBetween w (writeCommand c cmd cmd_length w)).drop 7).take cmd_length =
        (List.range cmd_length).map (fun i => sent (cmd i)) ∧
      (opsBetween w (writeCommand c cmd cmd_length w)).length = cmd_length + 9) := by
  refine ⟨?_, ?_, ?_⟩
  · rw [opsBetween_writeCommand, frameOps_255]
  · rw [opsBetween_writeCommand, frameOps_255]
    rfl
  · intro cmd_length hlen
    rw [opsBetween_writeCommand, frameOps_of_le c cmd cmd_length hlen]
    refine ⟨rfl, ?_, ?_, ?_⟩
    · simp
    · simp
    · simp

/-! ## The Mifare Classic trailer-block test -/

/-- C19: for every 32-bit block number, `mifareclassic_isTrailerBlock` returns
0 or 1; below 128 it returns 1 exactly when `uiBlock mod 4 = 3`; from 128 on
it returns 1 exactly when `(uiBlock + 1) mod 2^32` is a multiple of 16, which
is `uiBlock mod 16 = 15`; at `0xFFFFFFFF`, where the increment wraps to 0, it
returns 1. -/
theorem C19_isTrailerBlock (uiBlock : Nat) (h : uiBlock < 2 ^ 32) :
    (mifareclassic_isTrailerBlock uiBlock = 0 ∨ mifareclassic_isTrailerBlock uiBlock = 1) ∧
    (uiBlock < 128 → (mifareclassic_isTrailerBlock uiBlock = 1 ↔ uiBlock % 4 = 3)) ∧
    (128 ≤ uiBlock →
      ((mifareclassic_isTrailerBlock uiBlock = 1 ↔ (uiBlock + 1) % 2 ^ 32 % 16 = 0) ∧
       (mifareclassic_isTrailerBlock uiBlock = 1 ↔ uiBlock % 16 = 15))) ∧
    mifareclassic_isTrailerBlock 0xFFFFFFFF = 1 ∧
    (0xFFFFFFFF + 1) % 2 ^ 32 = 0 := by
  refine ⟨?_, ?_, ?_, by decide, by decide⟩
  · unfold mifareclassic_isTrailerBlock
    split <;> split <;> simp
  · intro hlt
    unfold mifareclassic_isTrailerBlock
    rw [if_pos hlt]
    split <;> simp <;> omega
  · intro hge
    unfold mifareclassic_isTrailerBlock
    rw [if_neg (by omega)]
    constructor
    · split <;> simp <;> omega
    · split <;> simp <;> omega

/-- C19 at concrete inputs: blocks 3 and 143 are trailers, blocks 4 and 131 are not. -/
theorem C19_isTrailerBlock_witness :
    (143 < 2 ^ 32 ∧ 128 ≤ 143) ∧
    mifareclassic_isTrailerBlock 143 = 1 ∧ mifareclassic_isTrailerBlock 131 = 0 ∧
    mifareclassic_isTrailerBlock 3 = 1 ∧ mifareclassic_isTrailerBlock 4 = 0 :=
  ⟨by decide,
   ((C19_isTrailerBlock 143 (by decide)).2.2.1 (by decide)).2.2 (by decide),
   by decide, by decide, by decide⟩

end PN532
